import Mathlib

/-!
Verification of the golox tree-walking Lox interpreter (Go) against its
specification.  The Go sources are shallowly embedded: Go values of type
`interface{}` become the inductive `Value`, the mutable chained
`env.Environment` becomes an indexed heap of frames inside an explicit
state record, and the recursive evaluator `interpreter.Eval` becomes a
fuel-indexed total function.  Machine floats (`float64`) are modelled by
`ℚ`; none of the verified properties depends on rounding.  Go `error`
values used for control flow (`returnError`, `breakError`,
`continueError`) and runtime errors become the `Signal` sum; a Go panic
(failed type assertion, out-of-range index, nil dereference) becomes
`Signal.fatal`.
-/

namespace Golox

/-- Single quote character, used when assembling runtime error messages. -/
def sq : String := "\x27"

/-- `token.Type` from token/token.go: the (finite) set of token type
constants.  In Go these are distinct string constants; an inductive with
one constructor per constant is an exact model. -/
inductive TokType where
  | LEFTPAREN | RIGHTPAREN | LEFTBRACE | RIGHTBRACE
  | COMMA | DOT | MINUS | PLUS | SEMICOLON | SLASH | STAR | POWER
  | BANG | BANGEQUAL | EQUAL | EQUALEQUAL
  | GREATER | GREATEREQUAL | LESS | LESSEQUAL
  | QUESTIONMARK | COLON
  | IDENTIFIER | STRINGLIT | NUMBER
  | AND | CLASS | ELSE | FALSE | FUN | FOR | IF | NIL | OR
  | PRINT | RETURN | SUPER | THIS | TRUE | VAR | WHILE
  | BREAK | CONTINUE | EOF | INVALID
  deriving DecidableEq, Repr

/-- Runtime values: the Go `interface{}` domain used by the interpreter.
`vnum` is Go `float64` (modelled by `ℚ`), `vint` is Go `int` (produced by
the `clock` native), `vuninit` is the `needsInitialization` sentinel
pointer from env/environment.go.  Functions, classes and instances are
heap references (Go pointers). -/
inductive Value where
  | vnil
  | vbool (b : Bool)
  | vnum (q : ℚ)
  | vint (n : ℤ)
  | vstr (s : String)
  | vnative (id : Nat) (ar : Nat)
  | vfunc (ref : Nat)
  | vclass (ref : Nat)
  | vinst (ref : Nat)
  | vuninit
  deriving DecidableEq, Repr

/-- Go `token.Token`: type, lexeme, optional literal, line. -/
structure Tok where
  type : TokType
  lexeme : String
  literal : Value
  line : Nat
  deriving DecidableEq, Repr

/-- Discriminates the dynamic type of a value (the Go dynamic type of the
`interface{}`).  Used to state cross-type equality facts. -/
def Value.ctorIdx : Value → Nat
  | .vnil => 0
  | .vbool _ => 1
  | .vnum _ => 2
  | .vint _ => 3
  | .vstr _ => 4
  | .vnative _ _ => 5
  | .vfunc _ => 6
  | .vclass _ => 7
  | .vinst _ => 8
  | .vuninit => 9

/-- `interpreter.isTruthy`: nil and false are falsy, all else truthy. -/
def isTruthy : Value → Bool
  | .vnil => false
  | .vbool b => b
  | _ => true

/-- `interpreter.isEqual`: nil is only equal to nil; otherwise Go
interface equality (same dynamic type and equal payload; references
compare by identity). -/
def isEqual (left right : Value) : Bool :=
  if left = .vnil ∧ right = .vnil then true
  else if left = .vnil then false
  else left = right

/-- `runtimeerror.Make`: renders a runtime error with the token line. -/
def mkErr (msg : String) (line : Nat) : String :=
  msg ++ "\n[line " ++ toString line ++ "]"

/-- `checkNumberOperand` accepts Go dynamic types `int` and `float64`. -/
def checkNum : Value → Bool
  | .vint _ => true
  | .vnum _ => true
  | _ => false

end Golox

namespace Golox

/- ### Abstract syntax (ast/ast.go)

Annotation fields `EnvIndex`, `EnvDepth`, `EnvSize` are carried inline as
in the Go structs; the parser initializes indices to `-1` and the
resolver overwrites them. -/

mutual

/-- Expression nodes (`ast.Expr`). -/
inductive Expr where
  | elit (v : Value)
  | egroup (e : Expr)
  | eunary (op : TokType) (line : Nat) (right : Expr)
  | ebinary (left : Expr) (op : TokType) (line : Nat) (right : Expr)
  | elogical (left : Expr) (op : TokType) (right : Expr)
  | eternary (c : Expr) (t : Expr) (e : Expr)
  | evar (name : String) (line : Nat) (envIndex : Int) (envDepth : Int)
  | eassign (name : String) (line : Nat) (value : Expr) (envIndex : Int) (envDepth : Int)
  | ecall (callee : Expr) (parenLine : Nat) (args : List Expr)
  | eget (obj : Expr) (name : String) (line : Nat)
  | eset (obj : Expr) (name : String) (line : Nat) (value : Expr)
  | ethis (line : Nat) (envIndex : Int) (envDepth : Int)
  | esuper (line : Nat) (method : String) (envDepth : Int)

/-- Statement nodes (`ast.Stmt`). -/
inductive Stmt where
  | sexpr (e : Expr)
  | sprint (e : Expr)
  | svar (name : String) (line : Nat) (ini : Option Expr) (envIndex : Int)
  | sblock (stmts : List Stmt) (envSize : Nat)
  | sif (c : Expr) (t : Stmt) (e : Option Stmt)
  | swhile (c : Expr) (body : Stmt)
  | sfor (ini : Option Stmt) (cond : Option Expr) (incr : Option Expr) (body : Stmt)
  | sreturn (line : Nat) (v : Option Expr)
  | sbreak
  | scontinue
  | sfun (fd : FunDef)
  | sclass (name : String) (line : Nat) (superVar : Option Expr)
      (methods : List FunDef) (classMethods : List FunDef) (envIndex : Int)

/-- `ast.Function`: name, parameters, whether a parameter list was
written (absent list ⇒ getter property), body, and the resolver-filled
`EnvSize`/`EnvIndex` plus the parser's `IsClassMethod` flag. -/
inductive FunDef where
  | mk (name : String) (line : Nat) (params : List String) (hasParens : Bool)
      (body : List Stmt) (envSize : Nat) (envIndex : Int) (isClassMethod : Bool)

end

/-- Field accessors for `FunDef`. -/
def FunDef.name : FunDef → String
  | .mk n _ _ _ _ _ _ _ => n

def FunDef.line : FunDef → Nat
  | .mk _ l _ _ _ _ _ _ => l

def FunDef.params : FunDef → List String
  | .mk _ _ p _ _ _ _ _ => p

def FunDef.hasParens : FunDef → Bool
  | .mk _ _ _ h _ _ _ _ => h

def FunDef.body : FunDef → List Stmt
  | .mk _ _ _ _ b _ _ _ => b

def FunDef.envSize : FunDef → Nat
  | .mk _ _ _ _ _ s _ _ => s

def FunDef.envIndex : FunDef → Int
  | .mk _ _ _ _ _ _ i _ => i

def FunDef.isClassMethod : FunDef → Bool
  | .mk _ _ _ _ _ _ _ c => c

/-- `ast.Function.IsProperty`.  Modelled from the spec: the method body of
`IsProperty` is not among the provided sources (only its callers are);
per the spec a "getter property" is "a method whose declaration lacks a
parameter list", which the parser records by leaving the parameter list
absent (`hasParens = false`). -/
def FunDef.IsProperty (f : FunDef) : Bool := !f.hasParens

/- ### Runtime state

The Go program mutates heap objects through pointers.  The embedding
threads an explicit state holding all allocated environments, user
functions, classes and instances; a Go pointer is the allocation index. -/

/-- `env.Environment`: string-keyed map, slot array, enclosing pointer. -/
structure Frame where
  values : List (String × Value)
  indexedValues : List Value
  enclosing : Option Nat
  deriving DecidableEq, Repr

/-- `interpreter.UserFunction`: definition, closure pointer, initializer
flag and environment size (the Go struct also carries the resolution,
which the embedded evaluator does not need to thread). -/
structure UserFn where
  fd : FunDef
  closure : Nat
  isInitializer : Bool
  envSize : Nat

/-- `interpreter.Class` together with its `MetaClass`: method table,
static (class) method table, superclass pointer and mutable field map. -/
structure ClassV where
  name : String
  methods : List (String × Nat)
  classMethods : List (String × Nat)
  superRef : Option Nat
  fields : List (String × Value)

/-- `interpreter.ClassInstance`: class pointer and mutable field map. -/
structure Inst where
  classRef : Nat
  fields : List (String × Value)

/-- The interpreter state: heaps for frames / functions / classes /
instances, the values printed so far, and the host clock second read by
the `clock` native. -/
structure St where
  frames : List Frame
  funcs : List UserFn
  classes : List ClassV
  insts : List Inst
  output : List Value
  clockSec : ℤ

/-- Go map update `m[k] = v`: replace the binding if present, else add. -/
def mapPut {α : Type} : List (String × α) → String → α → List (String × α)
  | [], k, v => [(k, v)]
  | (a, b) :: rest, k, v =>
      if a = k then (k, v) :: rest else (a, b) :: mapPut rest k v

/-- Replace frame `fid` in the state (no-op on a dangling pointer, which
never occurs in reachable states). -/
def setFrame (st : St) (fid : Nat) (f : Frame) : St :=
  { st with frames := st.frames.set fid f }

/-- `Environment.Define`: `index == -1` writes the name map, otherwise
the slot array.  (Go would panic on an out-of-range slot; `List.set` is
a no-op there — no reachable state hits that case.) -/
def envDefine (st : St) (fid : Nat) (name : String) (v : Value) (index : Int) : St :=
  match st.frames.get? fid with
  | none => st
  | some f =>
      if index = -1 then
        setFrame st fid { f with values := mapPut f.values name v }
      else
        setFrame st fid { f with indexedValues := f.indexedValues.set index.toNat v }

/-- `Environment.DefineUnitialized` (sic): same as `Define` but stores
the `needsInitialization` sentinel. -/
def envDefineUninitialized (st : St) (fid : Nat) (name : String) (index : Int) : St :=
  envDefine st fid name .vuninit index

/-- Control-flow and error signals: the inhabitants of the Go `error`
result of `Eval`.  `rt` is a runtime error message, `ret`/`brk`/`cont`
are the `returnError`/`breakError`/`continueError` control signals,
`fatal` is a Go panic, and `fuelOut` marks exhaustion of the (artificial)
recursion fuel. -/
inductive Signal where
  | rt (msg : String)
  | ret (v : Value)
  | brk
  | cont
  | fatal (msg : String)
  | fuelOut
  deriving DecidableEq, Repr

/-- `Environment.Get` (env/environment.go).  `gas` bounds the walk up the
`enclosing` chain (the Go chain is finite and acyclic: every frame's
`enclosing` was allocated earlier).  For `index == -1` the name map is
consulted, with the uninitialized-sentinel check, and the lookup
recurses into the enclosing frame on a miss; for `index >= 0` the slot
is returned directly — the Go code performs no sentinel check on this
path. -/
def envGet (st : St) : Nat → Nat → String → Int → Nat → Except Signal Value
  | 0, _, _, _, _ => .error (.fatal "environment chain gas exhausted")
  | gas + 1, fid, name, index, line =>
      match st.frames.get? fid with
      | none => .error (.fatal "nil environment dereference")
      | some f =>
          if index = -1 then
            match f.values.lookup name with
            | some v =>
                if v = .vuninit then
                  .error (.rt (mkErr ("Uninitialized variable access: " ++ sq ++ name ++ sq) line))
                else .ok v
            | none =>
                match f.enclosing with
                | some p => envGet st gas p name index line
                | none => .error (.rt (mkErr ("Undefined variable " ++ sq ++ name ++ sq) line))
          else
            match f.indexedValues.get? index.toNat with
            | some v => .ok v
            | none => .error (.fatal "index out of range")

/-- `Environment.Ancestor`: walk `distance` enclosing pointers.  `none`
models the nil dereference that a walk past the root would produce. -/
def ancestor (st : St) : Nat → Nat → Option Nat
  | fid, 0 => some fid
  | fid, d + 1 =>
      match st.frames.get? fid with
      | none => none
      | some f =>
          match f.enclosing with
          | some p => ancestor st p d
          | none => none

/-- `Environment.Get` from a frame, with gas large enough for any
acyclic chain in the state. -/
def envGetTop (st : St) (fid : Nat) (name : String) (index : Int) (line : Nat) :
    Except Signal Value :=
  envGet st (st.frames.length + 1) fid name index line

/-- `Environment.GetAt`: walk `distance` enclosing pointers, then get. -/
def envGetAt (st : St) (fid : Nat) (distance : Nat) (name : String) (index : Int)
    (line : Nat) : Except Signal Value :=
  match ancestor st fid distance with
  | some a => envGetTop st a name index line
  | none => .error (.fatal "nil environment dereference")

/-- `Environment.Assign`: for `index == -1` walk the chain looking for
the name; for `index >= 0` write the slot of this frame (a Go panic if
the slot does not exist). -/
def envAssign (st : St) : Nat → Nat → String → Int → Value → Nat → Except Signal St
  | 0, _, _, _, _, _ => .error (.fatal "environment chain gas exhausted")
  | gas + 1, fid, name, index, v, line =>
      match st.frames.get? fid with
      | none => .error (.fatal "nil environment dereference")
      | some f =>
          if index = -1 then
            if (f.values.lookup name).isSome then
              .ok (setFrame st fid { f with values := mapPut f.values name v })
            else
              match f.enclosing with
              | some p => envAssign st gas p name index v line
              | none =>
                  .error (.rt (mkErr ("Undefined variable " ++ sq ++ name ++ sq ++ ".") line))
          else
            if index.toNat < f.indexedValues.length then
              .ok (setFrame st fid { f with indexedValues := f.indexedValues.set index.toNat v })
            else .error (.fatal "index out of range")

/-- `Environment.Assign` with chain gas. -/
def envAssignTop (st : St) (fid : Nat) (name : String) (index : Int) (v : Value)
    (line : Nat) : Except Signal St :=
  envAssign st (st.frames.length + 1) fid name index v line

/-- `Environment.AssignAt`: walk then assign. -/
def envAssignAt (st : St) (fid : Nat) (distance : Nat) (index : Int) (name : String)
    (v : Value) (line : Nat) : Except Signal St :=
  match ancestor st fid distance with
  | some a => envAssignTop st a name index v line
  | none => .error (.fatal "nil environment dereference")

/-- `env.NewSized`: allocate a frame whose slot array holds `size` Go
`nil` interface values (which are exactly the Lox `nil` value).  Returns
the new frame id (the Go pointer). -/
def newSized (st : St) (parent : Option Nat) (size : Nat) : Nat × St :=
  (st.frames.length,
   { st with
     frames := st.frames ++ [⟨[], List.replicate size .vnil, parent⟩] })

end Golox

namespace Golox

/-- Result of one Go `Eval` call: the `(interface{}, error)` pair plus the
(threaded) mutated state. -/
abbrev Res := Except Signal Value × St

/-- Allocate a `UserFunction` on the heap (`NewUserFunction` / composite
literal); returns the new pointer. -/
def allocFn (st : St) (u : UserFn) : Nat × St :=
  (st.funcs.length, { st with funcs := st.funcs ++ [u] })

/-- `UserFunction.Bind`: allocate a size-1 frame over the function's
closure holding `this = instance` in slot 0, and a new `UserFunction`
closing over it (same definition, same initializer flag). -/
def bindFn (st : St) (fref : Nat) (iref : Nat) : Nat × St :=
  match st.funcs.get? fref with
  | none => (fref, st)
  | some u =>
      let (tfid, st1) := newSized st (some u.closure) 1
      let st2 := envDefine st1 tfid "this" (.vinst iref) 0
      allocFn st2 { fd := u.fd, closure := tfid, isInitializer := u.isInitializer,
                    envSize := u.envSize }

/-- `Class.Arity`: the arity of `init` when present, else 0. -/
def classArity (st : St) (cref : Nat) : Nat :=
  match st.classes.get? cref with
  | none => 0
  | some c =>
      match c.methods.lookup "init" with
      | some fref =>
          match st.funcs.get? fref with
          | some u => u.fd.params.length
          | none => 0
      | none => 0

/-- `Class.Get` (static access on a class value): own fields, then the
metaclass method table, else "Undefined property". -/
def classGetStatic (st : St) (cref : Nat) (name : String) (line : Nat) :
    Except Signal Value :=
  match st.classes.get? cref with
  | none => .error (.fatal "nil class dereference")
  | some c =>
      match c.fields.lookup name with
      | some v => .ok v
      | none =>
          match c.classMethods.lookup name with
          | some m => .ok (.vfunc m)
          | none =>
              .error (.rt (mkErr ("Undefined property " ++ sq ++ name ++ sq) line))

/-- `Class.FindMethod`.  Modelled from the spec: the function is called
from the interpreter's `Super` case but its body is not among the
provided sources.  Per the spec, method lookup "walks
`class.methods[name]` → recurse into `class.superclass` → miss", the
miss reporting "Undefined property 'X'.". -/
def findMethod (st : St) : Nat → Nat → String → Nat → Except Signal Nat
  | 0, _, _, _ => .error (.fatal "class chain gas exhausted")
  | gas + 1, cref, name, line =>
      match st.classes.get? cref with
      | none => .error (.fatal "nil class dereference")
      | some c =>
          match c.methods.lookup name with
          | some m => .ok m
          | none =>
              match c.superRef with
              | some s => findMethod st gas s name line
              | none =>
                  .error (.rt (mkErr ("Undefined property " ++ sq ++ name ++ sq ++ ".") line))

/-- The arithmetic/comparison pattern of the `Binary` evaluator: check
both operands with `checkNumberOperand`, then narrow both with the Go
type assertion `.(float64)` — which panics when the operand is an `int`
(`checkNumberOperand` admits `int`, the assertion does not). -/
def numBin (left right : Value) (line : Nat) (k : ℚ → ℚ → Value) :
    Except Signal Value :=
  if !checkNum left then .error (.rt (mkErr "Operand must be a number" line))
  else if !checkNum right then .error (.rt (mkErr "Operand must be a number" line))
  else
    match left, right with
    | .vnum a, .vnum b => .ok (k a b)
    | _, _ => .error (.fatal "interface conversion: int is not float64")

/-- `math.Pow` restricted to the exponents the embedding can represent
exactly (naturals); the verified claims never evaluate `**`. -/
def qpow (a b : ℚ) : ℚ :=
  if b.den = 1 ∧ 0 ≤ b.num then a ^ b.num.toNat else 0

/-- Result of the `Call` case once callee and arguments are evaluated:
`true` exactly for the Go values implementing `Callable`
(`*NativeFunction`, `*UserFunction`, `*Class`). -/
def isCallable : Value → Bool
  | .vnative _ _ => true
  | .vfunc _ => true
  | .vclass _ => true
  | _ => false

/-- `Callable.Arity` of a runtime value (`none` when not callable). -/
def arityOf (st : St) (v : Value) : Option Nat :=
  match v with
  | .vnative _ ar => some ar
  | .vfunc ref =>
      match st.funcs.get? ref with
      | some u => some u.fd.params.length
      | none => none
  | .vclass ref => some (classArity st ref)
  | _ => none

/-- The parameter-definition loop of `UserFunction.Call`:
`for i, param := range u.Definition.Params { env.Define(param.Lexeme,
arguments[i], i) }`.  Indexing `arguments[i]` past the end is a Go
panic. -/
def defineParams (st : St) (fid : Nat) : List String → List Value → Nat →
    Except Signal St
  | [], _, _ => .ok st
  | p :: rest, args, i =>
      match args.get? i with
      | some a => defineParams (envDefine st fid p a (Int.ofNat i)) fid rest args (i + 1)
      | none => .error (.fatal "index out of range")

/-- Line number of a superclass expression (always an `ast.Variable`),
used by the "Superclass must be a class." error. -/
def superLine : Expr → Nat
  | .evar _ l _ _ => l
  | _ => 0

/-- The instance allocation of `Class.Call`:
`&ClassInstance{Class: c, fields: map[string]interface{}{}}`; the new
instance's reference is `st.insts.length`. -/
def instAlloc (st : St) (cref : Nat) : St :=
  { st with insts := st.insts ++ [⟨cref, []⟩] }

mutual

/-- `interpreter.Eval` on expressions (interpreter/interpreter.go),
fuel-indexed.  Each case mirrors the corresponding `switch` case. -/
def evalExpr (fuel : Nat) (e : Expr) (env : Nat) (st : St) : Res :=
  match fuel with
  | 0 => (.error .fuelOut, st)
  | fuel + 1 =>
      match e with
      | .elit v => (.ok v, st)
      | .egroup g => evalExpr fuel g env st
      | .eunary op line r =>
          match evalExpr fuel r env st with
          | (.error s, st1) => (.error s, st1)
          | (.ok right, st1) =>
              if op = .MINUS then
                if checkNum right then
                  match right with
                  | .vnum q => (.ok (.vnum (-q)), st1)
                  | _ => (.error (.fatal "interface conversion: int is not float64"), st1)
                else (.error (.rt (mkErr "Operand must be a number" line)), st1)
              else if op = .BANG then (.ok (.vbool (!isTruthy right)), st1)
              else (.error (.fatal "Fatal error"), st1)
      | .ebinary l op line r =>
          match evalExpr fuel l env st with
          | (.error s, st1) => (.error s, st1)
          | (.ok left, st1) =>
              match evalExpr fuel r env st1 with
              | (.error s, st2) => (.error s, st2)
              | (.ok right, st2) =>
                  match op with
                  | .MINUS => (numBin left right line (fun a b => .vnum (a - b)), st2)
                  | .PLUS =>
                      match left, right with
                      | .vnum a, .vnum b => (.ok (.vnum (a + b)), st2)
                      | .vstr a, .vstr b => (.ok (.vstr (a ++ b)), st2)
                      | _, _ =>
                          (.error (.rt "Operands must be two numbers or two strings"), st2)
                  | .SLASH => (numBin left right line (fun a b => .vnum (a / b)), st2)
                  | .STAR => (numBin left right line (fun a b => .vnum (a * b)), st2)
                  | .POWER => (numBin left right line (fun a b => .vnum (qpow a b)), st2)
                  | .GREATER => (numBin left right line (fun a b => .vbool (decide (a > b))), st2)
                  | .GREATEREQUAL =>
                      (numBin left right line (fun a b => .vbool (decide (a ≥ b))), st2)
                  | .LESS => (numBin left right line (fun a b => .vbool (decide (a < b))), st2)
                  | .LESSEQUAL =>
                      (numBin left right line (fun a b => .vbool (decide (a ≤ b))), st2)
                  | .BANGEQUAL => (.ok (.vbool (!isEqual left right)), st2)
                  | .EQUALEQUAL => (.ok (.vbool (isEqual left right)), st2)
                  | .COMMA =>
                      match evalExpr fuel l env st2 with
                      | (.error s, st3) => (.error s, st3)
                      | (.ok _, st3) => evalExpr fuel r env st3
                  | _ => (.error (.fatal "Fatal error"), st2)
      | .elogical l op r =>
          match evalExpr fuel l env st with
          | (.error s, st1) => (.error s, st1)
          | (.ok left, st1) =>
              if op = .OR then
                if isTruthy left then (.ok left, st1) else evalExpr fuel r env st1
              else if op = .AND then
                if !isTruthy left then (.ok left, st1) else evalExpr fuel r env st1
              else evalExpr fuel r env st1
      | .eternary c t f =>
          match evalExpr fuel c env st with
          | (.error s, st1) => (.error s, st1)
          | (.ok cv, st1) =>
              if isTruthy cv then evalExpr fuel t env st1 else evalExpr fuel f env st1
      | .evar name line idx depth =>
          if 0 ≤ depth then (envGetAt st env depth.toNat name idx line, st)
          else (envGetTop st 0 name idx line, st)
      | .eassign name line v idx depth =>
          match evalExpr fuel v env st with
          | (.error s, st1) => (.error s, st1)
          | (.ok value, st1) =>
              if 0 ≤ depth then
                match envAssignAt st1 env depth.toNat idx name value line with
                | .ok st2 => (.ok value, st2)
                | .error s => (.error s, st1)
              else
                match envAssignTop st1 0 name idx value line with
                | .ok st2 => (.ok value, st2)
                | .error s => (.error s, st1)
      | .ecall callee parenLine args =>
          match evalExpr fuel callee env st with
          | (.error s, st1) => (.error s, st1)
          | (.ok cv, st1) =>
              match evalArgs fuel args env st1 with
              | (.error s, st2) => (.error s, st2)
              | (.ok vs, st2) =>
                  match cv with
                  | .vnative id ar =>
                      if ar ≠ vs.length then
                        (.error (.rt (mkErr ("Expected " ++ toString ar ++
                          " arguments but got " ++ toString vs.length ++ ".") parenLine)), st2)
                      else
                        match id with
                        | 0 => (.ok (.vint st2.clockSec), st2)
                        | _ => (.error (.fatal "unknown native"), st2)
                  | .vfunc ref =>
                      match st2.funcs.get? ref with
                      | none => (.error (.fatal "nil function dereference"), st2)
                      | some u =>
                          if u.fd.params.length ≠ vs.length then
                            (.error (.rt (mkErr ("Expected " ++ toString u.fd.params.length ++
                              " arguments but got " ++ toString vs.length ++ ".") parenLine)), st2)
                          else userFunctionCall fuel ref vs st2
                  | .vclass ref =>
                      if classArity st2 ref ≠ vs.length then
                        (.error (.rt (mkErr ("Expected " ++ toString (classArity st2 ref) ++
                          " arguments but got " ++ toString vs.length ++ ".") parenLine)), st2)
                      else classCall fuel ref vs st2
                  | _ =>
                      (.error (.rt (mkErr "Can only call functions and classes." parenLine)), st2)
      | .eget obj name line =>
          match evalExpr fuel obj env st with
          | (.error s, st1) => (.error s, st1)
          | (.ok v, st1) =>
              match v with
              | .vinst r => instanceGet fuel r name line st1
              | .vclass r => (classGetStatic st1 r name line, st1)
              | _ => (.error (.rt (mkErr "Only instances have properties." line)), st1)
      | .eset obj name line v =>
          match evalExpr fuel obj env st with
          | (.error s, st1) => (.error s, st1)
          | (.ok ov, st1) =>
              match ov with
              | .vinst r =>
                  match evalExpr fuel v env st1 with
                  | (.error s, st2) => (.error s, st2)
                  | (.ok w, st2) =>
                      match st2.insts.get? r with
                      | none => (.error (.fatal "nil instance dereference"), st2)
                      | some inst =>
                          (.ok .vnil,
                           { st2 with insts :=
                               st2.insts.set r { inst with fields := mapPut inst.fields name w } })
              | .vclass r =>
                  match evalExpr fuel v env st1 with
                  | (.error s, st2) => (.error s, st2)
                  | (.ok w, st2) =>
                      match st2.classes.get? r with
                      | none => (.error (.fatal "nil class dereference"), st2)
                      | some c =>
                          (.ok .vnil,
                           { st2 with classes :=
                               st2.classes.set r { c with fields := mapPut c.fields name w } })
              | _ => (.error (.rt (mkErr "Only instances have properties." line)), st1)
      | .ethis line idx depth =>
          if 0 ≤ depth then (envGetAt st env depth.toNat "this" idx line, st)
          else (envGetTop st 0 "this" idx line, st)
      | .esuper _ method depth =>
          match envGetAt st env depth.toNat "super" 0 0 with
          | .error s => (.error s, st)
          | .ok sc =>
              match sc with
              | .vclass r =>
                  match envGetAt st env (depth - 1).toNat "this" 0 0 with
                  | .error s => (.error s, st)
                  | .ok tc =>
                      match tc with
                      | .vinst i =>
                          match findMethod st (st.classes.length + 1) r method 0 with
                          | .error s => (.error s, st)
                          | .ok m =>
                              let (b, st1) := bindFn st m i
                              (.ok (.vfunc b), st1)
                      | _ => (.error (.fatal "Fatal error: this not a class instance ?"), st)
              | _ => (.error (.fatal "Fatal error: super not a class instance ?"), st)
termination_by structural fuel

/-- Argument evaluation loop of the `Call` case: left to right, stopping
at the first error. -/
def evalArgs (fuel : Nat) (args : List Expr) (env : Nat) (st : St) :
    Except Signal (List Value) × St :=
  match fuel with
  | 0 => (.error .fuelOut, st)
  | fuel + 1 =>
      match args with
      | [] => (.ok [], st)
      | a :: rest =>
          match evalExpr fuel a env st with
          | (.error s, st1) => (.error s, st1)
          | (.ok v, st1) =>
              match evalArgs fuel rest env st1 with
              | (.error s, st2) => (.error s, st2)
              | (.ok vs, st2) => (.ok (v :: vs), st2)
termination_by structural fuel

/-- `UserFunction.Call` (callable.go): allocate the call frame over the
closure, define parameters (skipped for getter properties), run the body;
a `returnError` is caught here — an initializer substitutes the bound
`this` (slot 0 of its closure) for the carried value, also when the body
falls off the end. -/
def userFunctionCall (fuel : Nat) (fref : Nat) (args : List Value) (st : St) : Res :=
  match fuel with
  | 0 => (.error .fuelOut, st)
  | fuel + 1 =>
      match st.funcs.get? fref with
      | none => (.error (.fatal "nil function dereference"), st)
      | some u =>
          match (if u.fd.IsProperty then .ok (newSized st (some u.closure) u.envSize).2
                 else defineParams (newSized st (some u.closure) u.envSize).2
                   (newSized st (some u.closure) u.envSize).1 u.fd.params args 0) with
          | .error s => (.error s, (newSized st (some u.closure) u.envSize).2)
          | .ok st2 =>
              match execStmts fuel u.fd.body (newSized st (some u.closure) u.envSize).1 st2 with
              | (.error (.ret v), st3) =>
                  if u.isInitializer then (envGetAt st3 u.closure 0 "this" 0 0, st3)
                  else (.ok v, st3)
              | (.error s, st3) => (.error s, st3)
              | (.ok _, st3) =>
                  if u.isInitializer then (envGetAt st3 u.closure 0 "this" 0 0, st3)
                  else (.ok .vnil, st3)
termination_by structural fuel

/-- `Class.Call` (class.go): construct the instance; if an `init` method
exists, bind it to the instance and call it, propagating errors but
discarding its result; return the instance. -/
def classCall (fuel : Nat) (cref : Nat) (args : List Value) (st : St) : Res :=
  match fuel with
  | 0 => (.error .fuelOut, st)
  | fuel + 1 =>
      match st.classes.get? cref with
      | none => (.error (.fatal "nil class dereference"), st)
      | some c =>
          match c.methods.lookup "init" with
          | some fref =>
              match userFunctionCall fuel
                  (bindFn (instAlloc st cref) fref st.insts.length).1 args
                  (bindFn (instAlloc st cref) fref st.insts.length).2 with
              | (.error s, st3) => (.error s, st3)
              | (.ok _, st3) => (.ok (.vinst st.insts.length), st3)
          | none => (.ok (.vinst st.insts.length), instAlloc st cref)
termination_by structural fuel

/-- `ClassInstance.Get` (class.go): fields first, then the class method
table; a found method is bound to the instance — a getter property is
immediately invoked with no arguments, otherwise the method is bound a
second time and that second binding is returned. -/
def instanceGet (fuel : Nat) (ref : Nat) (name : String) (line : Nat) (st : St) : Res :=
  match fuel with
  | 0 => (.error .fuelOut, st)
  | fuel + 1 =>
      match st.insts.get? ref with
      | none => (.error (.fatal "nil instance dereference"), st)
      | some inst =>
          match inst.fields.lookup name with
          | some v => (.ok v, st)
          | none =>
              match st.classes.get? inst.classRef with
              | none => (.error (.fatal "nil class dereference"), st)
              | some c =>
                  match c.methods.lookup name with
                  | some mref =>
                      let (b1, st1) := bindFn st mref ref
                      match st1.funcs.get? b1 with
                      | none => (.error (.fatal "nil function dereference"), st1)
                      | some bu =>
                          if bu.fd.IsProperty then userFunctionCall fuel b1 [] st1
                          else
                            let (b2, st2) := bindFn st1 mref ref
                            (.ok (.vfunc b2), st2)
                  | none =>
                      (.error (.rt (mkErr ("Undefined property " ++ sq ++ name ++ sq) line)), st)
termination_by structural fuel

/-- `interpreter.Eval` on statements. -/
def evalStmt (fuel : Nat) (s : Stmt) (env : Nat) (st : St) : Res :=
  match fuel with
  | 0 => (.error .fuelOut, st)
  | fuel + 1 =>
      match s with
      | .sexpr e =>
          match evalExpr fuel e env st with
          | (.error s, st1) => (.error s, st1)
          | (.ok _, st1) => (.ok .vnil, st1)
      | .sprint e =>
          match evalExpr fuel e env st with
          | (.error s, st1) => (.error s, st1)
          | (.ok v, st1) => (.ok .vnil, { st1 with output := st1.output ++ [v] })
      | .svar name _ ini idx =>
          match ini with
          | some e =>
              match evalExpr fuel e env st with
              | (.error s, st1) => (.error s, st1)
              | (.ok v, st1) => (.ok .vnil, envDefine st1 env name v idx)
          | none => (.ok .vnil, envDefineUninitialized st env name idx)
      | .sblock stmts size =>
          let (fid, st1) := newSized st (some env) size
          match execStmts fuel stmts fid st1 with
          | (.error s, st2) => (.error s, st2)
          | (.ok _, st2) => (.ok .vnil, st2)
      | .sif c t e =>
          match evalExpr fuel c env st with
          | (.error s, st1) => (.error s, st1)
          | (.ok cv, st1) =>
              if isTruthy cv then evalStmt fuel t env st1
              else
                match e with
                | some s2 => evalStmt fuel s2 env st1
                | none => (.ok .vnil, st1)
      | .swhile c body =>
          match evalExpr fuel c env st with
          | (.error s, st1) => (.error s, st1)
          | (.ok cv, st1) =>
              if !isTruthy cv then (.ok .vnil, st1)
              else
                match evalStmt fuel body env st1 with
                | (.error .brk, st2) => (.ok .vnil, st2)
                | (.error .cont, st2) => evalStmt fuel (.swhile c body) env st2
                | (.error s, st2) => (.error s, st2)
                | (.ok _, st2) => evalStmt fuel (.swhile c body) env st2
      | .sfor ini cond incr body =>
          match ini with
          | some i =>
              match evalStmt fuel i env st with
              | (.error s, st1) => (.error s, st1)
              | (.ok _, st1) => forLoop fuel cond incr body env st1
          | none => forLoop fuel cond incr body env st
      | .sreturn _ v =>
          match v with
          | some e =>
              match evalExpr fuel e env st with
              | (.error s, st1) => (.error s, st1)
              | (.ok value, st1) => (.error (.ret value), st1)
          | none => (.error (.ret .vnil), st)
      | .sbreak => (.error .brk, st)
      | .scontinue => (.error .cont, st)
      | .sfun fd =>
          let (fref, st1) := allocFn st
            { fd := fd, closure := env, isInitializer := false, envSize := fd.envSize }
          (.ok .vnil, envDefine st1 env fd.name (.vfunc fref) fd.envIndex)
      | .sclass name line sup methods classMethods idx =>
          match ((match sup with
                  | some se =>
                      match evalExpr fuel se env st with
                      | (.error s, st1) => (.error s, st1)
                      | (.ok sv, st1) =>
                          match sv with
                          | .vclass r => (.ok (Value.vclass r), st1)
                          | _ =>
                              (.error (.rt (mkErr "Superclass must be a class." (superLine se))), st1)
                  | none => (.ok Value.vnil, st)) : Res) with
          | (.error s, st1) => (.error s, st1)
          | (.ok sv, st1) =>
              let superRef : Option Nat := match sv with | .vclass r => some r | _ => none
              let st2 := envDefine st1 env name .vnil idx
              let (menv, st3) :=
                match superRef with
                | some r =>
                    let (sfid, sta) := newSized st2 (some env) 1
                    (sfid, envDefine sta sfid "super" (.vclass r) 0)
                | none => (env, st2)
              let (mtab, st4) :=
                methods.foldl (fun (acc : List (String × Nat) × St) m =>
                  let (fref, stb) := allocFn acc.2
                    { fd := m, closure := menv,
                      isInitializer := m.name = "init", envSize := m.envSize }
                  (mapPut acc.1 m.name fref, stb)) ([], st3)
              let (ctab, st5) :=
                classMethods.foldl (fun (acc : List (String × Nat) × St) m =>
                  let (fref, stb) := allocFn acc.2
                    { fd := m, closure := menv, isInitializer := false, envSize := m.envSize }
                  (mapPut acc.1 m.name fref, stb)) ([], st4)
              let cref := st5.classes.length
              let st6 := { st5 with classes := st5.classes ++
                [⟨name, mtab, ctab, superRef, []⟩] }
              match envAssignTop st6 env name idx (.vclass cref) line with
              | .ok st7 => (.ok .vnil, st7)
              | .error _ => (.ok .vnil, st6)
termination_by structural fuel

/-- The loop of the `For` evaluator (after the one-time initializer). -/
def forLoop (fuel : Nat) (cond : Option Expr) (incr : Option Expr) (body : Stmt)
    (env : Nat) (st : St) : Res :=
  match fuel with
  | 0 => (.error .fuelOut, st)
  | fuel + 1 =>
      match (match cond with
             | some c => evalExpr fuel c env st
             | none => (.ok (Value.vbool true), st)) with
      | (.error s, st1) => (.error s, st1)
      | (.ok cv, st1) =>
          if !isTruthy cv then (.ok .vnil, st1)
          else
            match evalStmt fuel body env st1 with
            | (.error .brk, st2) => (.ok .vnil, st2)
            | (.error .cont, st2) =>
                (match incr with
                 | some inc =>
                     match evalExpr fuel inc env st2 with
                     | (.error s, st3) => (.error s, st3)
                     | (.ok _, st3) => forLoop fuel cond incr body env st3
                 | none => forLoop fuel cond incr body env st2)
            | (.error s, st2) => (.error s, st2)
            | (.ok _, st2) =>
                (match incr with
                 | some inc =>
                     match evalExpr fuel inc env st2 with
                     | (.error s, st3) => (.error s, st3)
                     | (.ok _, st3) => forLoop fuel cond incr body env st3
                 | none => forLoop fuel cond incr body env st2)
termination_by structural fuel

/-- Sequential statement execution (bodies of blocks and functions). -/
def execStmts (fuel : Nat) (stmts : List Stmt) (env : Nat) (st : St) : Res :=
  match fuel with
  | 0 => (.error .fuelOut, st)
  | fuel + 1 =>
      match stmts with
      | [] => (.ok .vnil, st)
      | s :: rest =>
          match evalStmt fuel s env st with
          | (.error sig, st1) => (.error sig, st1)
          | (.ok _, st1) => execStmts fuel rest env st1
termination_by structural fuel

end

end Golox

namespace Golox

/- ### Resolver (semantic package)

The Go resolver mutates the AST's annotation fields in place and
accumulates unused-local information; the embedding rewrites the tree
functionally and threads an explicit resolver state. -/

/-- What `vInfo.stmt` records about a declaration site (the driver
reports unused variables/functions by kind, name and line).
`kind`: 0 = var, 1 = fun, 2 = class. -/
structure UOrigin where
  kind : Nat
  name : String
  line : Nat
  deriving DecidableEq, Repr

/-- `semantic.vInfo`: name, `vDeclared`(0)/`vDefined`(1) status, usage
flag and the originating declaration (`none` for function parameters and
the synthetic `this`). -/
structure VInfo where
  name : String
  status : Nat
  isUsed : Bool
  origin : Option UOrigin
  deriving DecidableEq, Repr

/-- Resolver state: scope stack (last element is the innermost scope, as
in the Go slice), the two context flags, and the accumulated unused
set. -/
structure RSt where
  scopes : List (List VInfo)
  currentFunction : Nat
  currentClass : Nat
  unused : List UOrigin
  deriving DecidableEq, Repr

/-- `ftNone` / `ftFunction` / `ftMethod` / `ftInitializer`. -/
def ftNone : Nat := 0
def ftFunction : Nat := 1
def ftMethod : Nat := 2
def ftInitializer : Nat := 3

/-- `ctNone` / `ctClass`. -/
def ctNone : Nat := 0
def ctClass : Nat := 1

/-- `semantic.scopeLookup`: scan a scope from its end for the name;
`-1` when absent. -/
def scopeLookup (name : String) (scope : List VInfo) : Int :=
  match scope.reverse.findIdx? (fun v => v.name = name) with
  | some j => Int.ofNat (scope.length - 1 - j)
  | none => -1

/-- Mark the entry at `i` used (`v.isUsed = true`). -/
def markUsed (scope : List VInfo) (i : Nat) : List VInfo :=
  match scope.get? i with
  | some v => scope.set i { v with isUsed := true }
  | none => scope

/-- The walk of `Resolver.resolveLocal` over the reversed scope stack
(head = innermost): returns slot index, depth and the updated stack. -/
def resolveLocalGo (name : String) : List (List VInfo) →
    Option (Nat × Nat × List (List VInfo))
  | [] => none
  | scope :: rest =>
      let idx := scopeLookup name scope
      if 0 ≤ idx then some (idx.toNat, 0, markUsed scope idx.toNat :: rest)
      else
        match resolveLocalGo name rest with
        | some (i, d, rest2) => some (i, d + 1, scope :: rest2)
        | none => none

/-- `Resolver.resolveLocal`: innermost match wins; marks the binding
used; `(-1, -1)` when the name is in no scope (a global). -/
def resolveLocal (name : String) (rst : RSt) : (Int × Int) × RSt :=
  match resolveLocalGo name rst.scopes.reverse with
  | some (i, d, rev) =>
      ((Int.ofNat i, Int.ofNat d), { rst with scopes := rev.reverse })
  | none => ((-1, -1), rst)

/-- `Resolver.declare`: error when the innermost scope already holds the
name, else append a `vDeclared` entry and return its slot index; `-1`
with no effect at global scope. -/
def rdeclare (name : String) (origin : Option UOrigin) (rst : RSt) :
    Except String (Int × RSt) :=
  match rst.scopes.getLast? with
  | none => .ok (-1, rst)
  | some top =>
      if 0 ≤ scopeLookup name top then
        .error ("Variable " ++ sq ++ name ++ sq ++ " already declared in this scope.")
      else
        .ok (Int.ofNat top.length,
             { rst with scopes := rst.scopes.dropLast ++
                 [top ++ [⟨name, 0, false, origin⟩]] })

/-- `Resolver.define`: mark the innermost binding `vDefined`. -/
def rdefine (name : String) (rst : RSt) : RSt :=
  match rst.scopes.getLast? with
  | none => rst
  | some top =>
      let idx := scopeLookup name top
      if 0 ≤ idx then
        match top.get? idx.toNat with
        | some v =>
            { rst with scopes := rst.scopes.dropLast ++
                [top.set idx.toNat { v with status := 1 }] }
        | none => rst
      else rst

/-- `Resolver.pushScope`. -/
def pushScope (rst : RSt) : RSt :=
  { rst with scopes := rst.scopes ++ [[]] }

/-- `Resolver.popScope`: remove the innermost scope, record as unused
every entry that was never used and has an origin node, and return the
popped scope (its length is the `EnvSize` written into block/function
nodes).  Go iterates a map here, so only the recorded *set* is
meaningful; the embedding keeps scope order. -/
def popScope (rst : RSt) : List VInfo × RSt :=
  match rst.scopes.getLast? with
  | none => ([], rst)
  | some top =>
      (top,
       { rst with
         scopes := rst.scopes.dropLast,
         unused := rst.unused ++
           (top.filter (fun v => !v.isUsed ∧ v.origin.isSome)).filterMap (·.origin) })

/-- The parameter loop of `resolveFunction` (origin node is nil). -/
def declareParams (params : List String) (rst : RSt) : Except String RSt :=
  match params with
  | [] => .ok rst
  | p :: rest =>
      match rdeclare p none rst with
      | .error err => .error err
      | .ok (_, rst1) => declareParams rest (rdefine p rst1)

mutual

/-- `Resolver.resolve` on expressions: returns the annotated node.
Node kinds without a `switch` case in the Go resolver (literals,
ternary, super) pass through unchanged. -/
def resolveE (fuel : Nat) (e : Expr) (rst : RSt) : Except String (Expr × RSt) :=
  match fuel with
  | 0 => .error "resolver fuel exhausted"
  | fuel + 1 =>
      match e with
      | .evar name line _ _ =>
          let selfInit : Bool :=
            match rst.scopes.getLast? with
            | some top =>
                let i := scopeLookup name top
                if 0 ≤ i then
                  match top.get? i.toNat with
                  | some v => decide (v.status = 0)
                  | none => false
                else false
            | none => false
          if selfInit then
            .error "Cannot read local variable in its own initializer."
          else
            let ((index, depth), rst1) := resolveLocal name rst
            .ok (.evar name line index depth, rst1)
      | .eassign name line v _ _ =>
          match resolveE fuel v rst with
          | .error err => .error err
          | .ok (v1, rst1) =>
              let ((index, depth), rst2) := resolveLocal name rst1
              .ok (.eassign name line v1 index depth, rst2)
      | .ebinary l op line r =>
          match resolveE fuel l rst with
          | .error err => .error err
          | .ok (l1, rst1) =>
              match resolveE fuel r rst1 with
              | .error err => .error err
              | .ok (r1, rst2) => .ok (.ebinary l1 op line r1, rst2)
      | .ecall callee parenLine args =>
          match resolveE fuel callee rst with
          | .error err => .error err
          | .ok (c1, rst1) =>
              match resolveEs fuel args rst1 with
              | .error err => .error err
              | .ok (args1, rst2) => .ok (.ecall c1 parenLine args1, rst2)
      | .egroup g =>
          match resolveE fuel g rst with
          | .error err => .error err
          | .ok (g1, rst1) => .ok (.egroup g1, rst1)
      | .elogical l op r =>
          match resolveE fuel l rst with
          | .error err => .error err
          | .ok (l1, rst1) =>
              match resolveE fuel r rst1 with
              | .error err => .error err
              | .ok (r1, rst2) => .ok (.elogical l1 op r1, rst2)
      | .eunary op line r =>
          match resolveE fuel r rst with
          | .error err => .error err
          | .ok (r1, rst1) => .ok (.eunary op line r1, rst1)
      | .eget obj name line =>
          match resolveE fuel obj rst with
          | .error err => .error err
          | .ok (o1, rst1) => .ok (.eget o1 name line, rst1)
      | .eset obj name line v =>
          match resolveE fuel v rst with
          | .error err => .error err
          | .ok (v1, rst1) =>
              match resolveE fuel obj rst1 with
              | .error err => .error err
              | .ok (o1, rst2) => .ok (.eset o1 name line v1, rst2)
      | .ethis line _ _ =>
          if rst.currentClass = ctNone then
            .error ("Cannot use " ++ sq ++ "this" ++ sq ++ " outside of a class.")
          else
            let ((index, depth), rst1) := resolveLocal "this" rst
            .ok (.ethis line index depth, rst1)
      | other => .ok (other, rst)
termination_by structural fuel

/-- Resolve a list of expressions (call arguments). -/
def resolveEs (fuel : Nat) (es : List Expr) (rst : RSt) :
    Except String (List Expr × RSt) :=
  match fuel with
  | 0 => .error "resolver fuel exhausted"
  | fuel + 1 =>
      match es with
      | [] => .ok ([], rst)
      | e :: rest =>
          match resolveE fuel e rst with
          | .error err => .error err
          | .ok (e1, rst1) =>
              match resolveEs fuel rest rst1 with
              | .error err => .error err
              | .ok (rest1, rst2) => .ok (e1 :: rest1, rst2)
termination_by structural fuel

/-- `Resolver.resolve` on statements. -/
def resolveS (fuel : Nat) (s : Stmt) (rst : RSt) : Except String (Stmt × RSt) :=
  match fuel with
  | 0 => .error "resolver fuel exhausted"
  | fuel + 1 =>
      match s with
      | .sblock stmts _ =>
          match resolveSs fuel stmts (pushScope rst) with
          | .error err => .error err
          | .ok (stmts1, rst1) =>
              let (top, rst2) := popScope rst1
              .ok (.sblock stmts1 top.length, rst2)
      | .svar name line ini _ =>
          match rdeclare name (some ⟨0, name, line⟩) rst with
          | .error _ => .ok (.svar name line ini (-1), rst)
          | .ok (index, rst1) =>
              match (match ini with
                     | some e =>
                         match resolveE fuel e rst1 with
                         | .error err => .error err
                         | .ok (e1, rst2) => .ok (some e1, rst2)
                     | none => .ok (none, rst1) :
                       Except String (Option Expr × RSt)) with
              | .error err => .error err
              | .ok (ini1, rst2) =>
                  .ok (.svar name line ini1 index, rdefine name rst2)
      | .sfun fd =>
          match rdeclare fd.name (some ⟨1, fd.name, fd.line⟩) rst with
          | .error err => .error err
          | .ok (index, rst1) =>
              let rst2 := rdefine fd.name rst1
              match resolveFunctionR fuel fd ftFunction rst2 with
              | .error err => .error err
              | .ok (fd1, rst3) =>
                  .ok (.sfun (FunDef.mk fd1.name fd1.line fd1.params fd1.hasParens
                        fd1.body fd1.envSize index fd1.isClassMethod), rst3)
      | .sexpr e =>
          match resolveE fuel e rst with
          | .error err => .error err
          | .ok (e1, rst1) => .ok (.sexpr e1, rst1)
      | .sprint e =>
          match resolveE fuel e rst with
          | .error err => .error err
          | .ok (e1, rst1) => .ok (.sprint e1, rst1)
      | .sif c t e =>
          match resolveE fuel c rst with
          | .error err => .error err
          | .ok (c1, rst1) =>
              match resolveS fuel t rst1 with
              | .error err => .error err
              | .ok (t1, rst2) =>
                  match e with
                  | some s2 =>
                      match resolveS fuel s2 rst2 with
                      | .error err => .error err
                      | .ok (s21, rst3) => .ok (.sif c1 t1 (some s21), rst3)
                  | none => .ok (.sif c1 t1 none, rst2)
      | .sreturn line v =>
          if rst.currentFunction = ftNone then
            .error "Cannot return from top-level code."
          else
            match v with
            | some e =>
                if rst.currentFunction = ftInitializer then
                  .error "Cannot return a value from an initializer."
                else
                  match resolveE fuel e rst with
                  | .error err => .error err
                  | .ok (e1, rst1) => .ok (.sreturn line (some e1), rst1)
            | none => .ok (.sreturn line none, rst)
      | .sfor ini cond incr body =>
          match resolveOE fuel incr rst with
          | .error err => .error err
          | .ok (incr1, rst1) =>
              match resolveOE fuel cond rst1 with
              | .error err => .error err
              | .ok (cond1, rst2) =>
                  match resolveOE fuel incr1 rst2 with
                  | .error err => .error err
                  | .ok (incr2, rst3) =>
                      match resolveS fuel body rst3 with
                      | .error err => .error err
                      | .ok (body1, rst4) => .ok (.sfor ini cond1 incr2 body1, rst4)
      | .swhile c body =>
          match resolveE fuel c rst with
          | .error err => .error err
          | .ok (c1, rst1) =>
              match resolveS fuel body rst1 with
              | .error err => .error err
              | .ok (b1, rst2) => .ok (.swhile c1 b1, rst2)
      | .sclass name line sup methods classMethods _ =>
          let enclosingClass := rst.currentClass
          match rdeclare name (some ⟨2, name, line⟩) { rst with currentClass := ctClass } with
          | .error err => .error err
          | .ok (index, rst1) =>
              let rst2 := rdefine name rst1
              let rst3 := pushScope rst2
              let rst4 :=
                match rst3.scopes.getLast? with
                | some top =>
                    { rst3 with scopes := rst3.scopes.dropLast ++
                        [top ++ [⟨"this", 1, true, none⟩]] }
                | none => rst3
              match resolveMethods fuel methods rst4 with
              | .error err => .error err
              | .ok (methods1, rst5) =>
                  let (_, rst6) := popScope rst5
                  .ok (.sclass name line sup methods1 classMethods index,
                       { rst6 with currentClass := enclosingClass })
      | other => .ok (other, rst)
termination_by structural fuel

/-- Resolve an optional expression (a `nil` expression reaches no
resolver case and passes through). -/
def resolveOE (fuel : Nat) (e : Option Expr) (rst : RSt) :
    Except String (Option Expr × RSt) :=
  match fuel with
  | 0 => .error "resolver fuel exhausted"
  | fuel + 1 =>
      match e with
      | some e0 =>
          match resolveE fuel e0 rst with
          | .error err => .error err
          | .ok (e1, rst1) => .ok (some e1, rst1)
      | none => .ok (none, rst)

/-- The class-body method loop: each method resolves with
`ftInitializer` when named `init`, else `ftMethod`. -/
def resolveMethods (fuel : Nat) (ms : List FunDef) (rst : RSt) :
    Except String (List FunDef × RSt) :=
  match fuel with
  | 0 => .error "resolver fuel exhausted"
  | fuel + 1 =>
      match ms with
      | [] => .ok ([], rst)
      | m :: rest =>
          let declaration := if m.name = "init" then ftInitializer else ftMethod
          match resolveFunctionR fuel m declaration rst with
          | .error err => .error err
          | .ok (m1, rst1) =>
              match resolveMethods fuel rest rst1 with
              | .error err => .error err
              | .ok (rest1, rst2) => .ok (m1 :: rest1, rst2)
termination_by structural fuel

/-- `Resolver.resolveFunction`: set the function context, open the
function scope, declare+define the parameters (unless a getter
property), resolve the body, close the scope writing its size into the
node, restore the context. -/
def resolveFunctionR (fuel : Nat) (fd : FunDef) (ftype : Nat) (rst : RSt) :
    Except String (FunDef × RSt) :=
  match fuel with
  | 0 => .error "resolver fuel exhausted"
  | fuel + 1 =>
      let enclosingFunction := rst.currentFunction
      let rst1 := pushScope { rst with currentFunction := ftype }
      match (if fd.IsProperty then .ok rst1 else declareParams fd.params rst1 :
             Except String RSt) with
      | .error err => .error err
      | .ok rst2 =>
          match resolveSs fuel fd.body rst2 with
          | .error err => .error err
          | .ok (body1, rst3) =>
              let (top, rst4) := popScope rst3
              .ok (FunDef.mk fd.name fd.line fd.params fd.hasParens body1
                    top.length fd.envIndex fd.isClassMethod,
                   { rst4 with currentFunction := enclosingFunction })
termination_by structural fuel

/-- `Resolver.resolveStatements`. -/
def resolveSs (fuel : Nat) (stmts : List Stmt) (rst : RSt) :
    Except String (List Stmt × RSt) :=
  match fuel with
  | 0 => .error "resolver fuel exhausted"
  | fuel + 1 =>
      match stmts with
      | [] => .ok ([], rst)
      | s :: rest =>
          match resolveS fuel s rst with
          | .error err => .error err
          | .ok (s1, rst1) =>
              match resolveSs fuel rest rst1 with
              | .error err => .error err
              | .ok (rest1, rst2) => .ok (s1 :: rest1, rst2)
termination_by structural fuel

end

/-- `semantic.Resolve`: run the resolver on a program from the empty
state; returns the annotated program and the unused set. -/
def golResolve (fuel : Nat) (stmts : List Stmt) :
    Except String (List Stmt × List UOrigin) :=
  match resolveSs fuel stmts ⟨[], ftNone, ctNone, []⟩ with
  | .error err => .error err
  | .ok (stmts1, rst) => .ok (stmts1, rst.unused)

end Golox

namespace Golox

/- ### Driver (main.go, interpreter globals) -/

/-- The initial interpreter state: the global environment (frame 0) with
the `clock` native registered at startup (globals.go `init`), no other
allocations, empty output.  `clockSec` is the host clock second that the
`clock` native will return. -/
def initialSt (clockSec : ℤ) : St :=
  { frames := [⟨[("clock", .vnative 0 0)], [], none⟩],
    funcs := [], classes := [], insts := [], output := [], clockSec := clockSec }

/-- `err.Error()` as printed by `runtimeerror.Print`.  Only runtime
errors are ever printed in reachable runs; a panic aborts the process
instead. -/
def signalMsg : Signal → String
  | .rt m => m
  | .fatal m => "panic: " ++ m
  | _ => "signal"

/-- Result of `interpreter.Interpret`: final state, the runtime-error
flag (`runtimeerror.HadError`), the printed error messages, and the
panic that crashed the process, if any. -/
structure InterpRes where
  st : St
  hadRuntimeError : Bool
  errMsgs : List String
  crashed : Option String

/-- `interpreter.Interpret`: evaluate each top-level statement against
the global environment; a failed statement is reported through
`runtimeerror.Print` and execution continues with the next statement.
A Go panic (`Signal.fatal`) or fuel exhaustion aborts the run. -/
def interpret (fuel : Nat) : List Stmt → St → Bool → List String → InterpRes
  | [], st, flag, msgs => ⟨st, flag, msgs, none⟩
  | s :: rest, st, flag, msgs =>
      match evalStmt fuel s 0 st with
      | (.ok _, st1) => interpret fuel rest st1 flag msgs
      | (.error (.fatal m), st1) => ⟨st1, flag, msgs, some m⟩
      | (.error .fuelOut, st1) => ⟨st1, flag, msgs, some "fuel exhausted"⟩
      | (.error sig, st1) => interpret fuel rest st1 true (msgs ++ [signalMsg sig])

/-- The three process-wide error flags checked by `runFile`. -/
structure Flags where
  parseHadError : Bool
  runtimeHadError : Bool
  semanticHadError : Bool
  deriving DecidableEq, Repr

/-- Result of one `run` (main.go): the flag bundle afterwards, whether
the interpreter ran, what `run` printed for a resolution failure, the
number of unused locals reported, and the final interpreter state. -/
structure RunRes where
  flags : Flags
  executed : Bool
  resolveErrPrinted : Option String
  unusedReported : Nat
  interp : Option InterpRes

/-- `main.run` on an already-parsed program (a parse error would have
set `parseerror.HadError` and returned before this point; the flag is a
parameter).  On a resolution error, the error is printed with
`fmt.Println` and `run` returns — `semanticerror.HadError` is *not* set:
`semanticerror.MakeSemanticError` only constructs the error value, and
nothing on this path calls `semanticerror.Print`.  With a non-empty
unused set the unused locals are reported and `run` returns, again
without setting any flag (the constructed semantic error is assigned to
a local and dropped).  Otherwise the program is interpreted and
`runtimeerror.HadError` records whether any statement failed. -/
def runModel (fuel : Nat) (stmts : List Stmt) (parseHad : Bool) (clockSec : ℤ) : RunRes :=
  if parseHad then
    ⟨⟨true, false, false⟩, false, none, 0, none⟩
  else
    match golResolve fuel stmts with
    | .error e =>
        ⟨⟨false, false, false⟩, false, some e, 0, none⟩
    | .ok (stmts1, unused) =>
        if unused.length ≠ 0 then
          ⟨⟨false, false, false⟩, false, none, unused.length, none⟩
        else
          let r := interpret fuel stmts1 (initialSt clockSec)
          let res := r false []
          ⟨⟨false, res.hadRuntimeError, false⟩, true, none, 0, some res⟩

/-- The exit path of `main.runFile`: 65 when `parseerror.HadError`, 70
when `runtimeerror.HadError || semanticerror.HadError`, otherwise the
process falls through and exits normally (0). -/
def runFileExitCode (fuel : Nat) (stmts : List Stmt) (parseHad : Bool)
    (clockSec : ℤ) : Nat :=
  let r := runModel fuel stmts parseHad clockSec
  if r.flags.parseHadError then 65
  else if r.flags.runtimeHadError || r.flags.semanticHadError then 70
  else 0

/-- `main.main`: more than one CLI argument exits 64; exactly one runs
the file; zero enters the REPL (which never exits on its own, `none`). -/
def mainExitCode (nargs : Nat) (fuel : Nat) (stmts : List Stmt) (parseHad : Bool)
    (clockSec : ℤ) : Option Nat :=
  if nargs > 1 then some 64
  else if nargs = 1 then some (runFileExitCode fuel stmts parseHad clockSec)
  else none

end Golox

namespace Golox

/- ### Parser (parser package)

Only the parser state that the Go methods read/write is threaded:
the token slice, the cursor, the `inloop` flag guarding stray
`break`/`continue`, and the `parseerror.HadError` flag with the logged
messages. -/

/-- Left and right curly brace characters for parser error messages. -/
def lbr : String := "\x7b"

def rbr : String := "\x7d"

/-- `parser.Parser` plus the `parseerror` sink. -/
structure PState where
  tokens : List Tok
  current : Nat
  inloop : Bool
  hadError : Bool
  errors : List String
  deriving DecidableEq, Repr

/-- The token the scanner guarantees at the end of every stream. -/
def eofTok : Tok := ⟨.EOF, "", .vnil, 0⟩

/-- `Parser.peek`. -/
def peek (p : PState) : Tok := p.tokens.getD p.current eofTok

/-- `Parser.previous`. -/
def previous (p : PState) : Tok := p.tokens.getD (p.current - 1) eofTok

/-- `Parser.isAtEnd`. -/
def isAtEnd (p : PState) : Bool := (peek p).type = .EOF

/-- `Parser.check`. -/
def check (p : PState) (tp : TokType) : Bool :=
  if isAtEnd p then false else (peek p).type = tp

/-- `Parser.advance`. -/
def advance (p : PState) : Tok × PState :=
  if ¬ isAtEnd p then
    let p1 := { p with current := p.current + 1 }
    (previous p1, p1)
  else (previous p, p)

/-- `Parser.match` on a list of token types. -/
def matchT (p : PState) (tps : List TokType) : Bool × PState :=
  match tps with
  | [] => (false, p)
  | tp :: rest =>
      if check p tp then (true, (advance p).2) else matchT p rest

/-- `parseerror.MakeError`. -/
def makeParseError (tok : Tok) (message : String) : String :=
  if tok.type = .EOF then
    "[line " ++ toString tok.line ++ "] Error at end: " ++ message
  else
    "[line " ++ toString tok.line ++ "] Error at " ++ sq ++ tok.lexeme ++ sq ++ ": " ++ message

/-- `Parser.consume`. -/
def consume (p : PState) (tp : TokType) (message : String) :
    Except String Tok × PState :=
  if check p tp then
    let (t, p1) := advance p
    (.ok t, p1)
  else (.error (makeParseError (peek p) message), p)

/-- The loop of `Parser.synchronize` (gas-bounded; `advance` moves the
cursor while not at end, so the remaining-token count is a bound). -/
def syncGo : Nat → PState → PState
  | 0, p => p
  | gas + 1, p =>
      if isAtEnd p then p
      else if (previous p).type = .SEMICOLON then p
      else
        match (peek p).type with
        | .CLASS | .FUN | .VAR | .FOR | .IF | .WHILE | .PRINT | .RETURN => p
        | _ => syncGo gas (advance p).2

/-- `Parser.synchronize`. -/
def synchronize (p : PState) : PState :=
  syncGo (p.tokens.length + 1) (advance p).2

/-- `Parser.breakStatement`: a `break` while the parser is not inside a
loop is the parse error "Stray break detected.". -/
def breakStatement (p : PState) : Except String Stmt × PState :=
  if ¬ p.inloop then
    (.error (makeParseError (previous p) "Stray break detected."), p)
  else
    match consume p .SEMICOLON "Expected ';' after break" with
    | (.error e, p1) => (.error e, p1)
    | (.ok _, p1) => (.ok .sbreak, p1)

/-- `Parser.continueStatement`. -/
def continueStatement (p : PState) : Except String Stmt × PState :=
  if ¬ p.inloop then
    (.error (makeParseError (previous p) "Stray continue detected."), p)
  else
    match consume p .SEMICOLON "Expected ';' after continue" with
    | (.error e, p1) => (.error e, p1)
    | (.ok _, p1) => (.ok .scontinue, p1)

end Golox

namespace Golox

/-- Continuation tags for `pbinLoop` (which Go expresses by calling the
next grammar function directly). -/
inductive ParserK where
  | passignmentK | pcomparisonK | padditionK | pmultiplicationK | punaryK
  deriving DecidableEq, Repr

mutual

/-- `Parser.declaration`: dispatch to class/var/fun/statement; on error
synchronize, log through the parse-error sink (setting
`parseerror.HadError`) and yield a nil statement. -/
def pdeclaration (fuel : Nat) (p : PState) : Option Stmt × PState :=
  match fuel with
  | 0 => (none, { p with hadError := true, errors := p.errors ++ ["parser fuel exhausted"] })
  | fuel + 1 =>
      let step : Except String Stmt × PState :=
        match matchT p [.CLASS] with
        | (true, p1) => pclassDeclaration fuel p1
        | (false, _) =>
            match matchT p [.VAR] with
            | (true, p1) => pvarDeclaration fuel p1
            | (false, _) =>
                match matchT p [.FUN] with
                | (true, p1) =>
                    match pfunDeclaration fuel "function" p1 with
                    | (.error e, p2) => (.error e, p2)
                    | (.ok fd, p2) => (.ok (.sfun fd), p2)
                | (false, _) => pstatement fuel p
      match step with
      | (.ok s, p1) => (some s, p1)
      | (.error e, p1) =>
          let p2 := synchronize p1
          (none, { p2 with hadError := true, errors := p2.errors ++ [e] })
termination_by structural fuel

/-- `Parser.classDeclaration`. -/
def pclassDeclaration (fuel : Nat) (p : PState) : Except String Stmt × PState :=
  match fuel with
  | 0 => (.error "parser fuel exhausted", p)
  | fuel + 1 =>
      match consume p .IDENTIFIER "Expected class name." with
      | (.error e, p1) => (.error e, p1)
      | (.ok name, p1) =>
          let (hasSuper, p2) := matchT p1 [.LESS]
          match (if hasSuper then
                   match consume p2 .IDENTIFIER "Expected superclass name." with
                   | (.error e, p3) => (.error e, p3)
                   | (.ok _, p3) =>
                       -- Go builds `&ast.Variable{Name: p.previous()}`: the
                       -- annotation fields keep their zero values (0, 0).
                       (.ok (some (Expr.evar (previous p3).lexeme (previous p3).line 0 0)), p3)
                 else (.ok none, p2) : Except String (Option Expr) × PState) with
          | (.error e, p3) => (.error e, p3)
          | (.ok superclass, p3) =>
              match consume p3 .LEFTBRACE ("Expected " ++ sq ++ lbr ++ sq ++ " before class body.") with
              | (.error e, p4) => (.error e, p4)
              | (.ok _, p4) =>
                  match pclassBody fuel p4 [] [] with
                  | (.error e, p5) => (.error e, p5)
                  | (.ok (methods, classMethods), p5) =>
                      match consume p5 .RIGHTBRACE ("Expected " ++ sq ++ rbr ++ sq ++ " after class body.") with
                      | (.error e, p6) => (.error e, p6)
                      | (.ok _, p6) =>
                          (.ok (.sclass name.lexeme name.line superclass methods
                                 classMethods (-1)), p6)
termination_by structural fuel

/-- The method-collection loop of `classDeclaration` (methods vs static
class methods are split on the parsed `IsClassMethod` flag). -/
def pclassBody (fuel : Nat) (p : PState) (methods : List FunDef)
    (classMethods : List FunDef) : Except String (List FunDef × List FunDef) × PState :=
  match fuel with
  | 0 => (.error "parser fuel exhausted", p)
  | fuel + 1 =>
      if ¬ check p .RIGHTBRACE ∧ ¬ isAtEnd p then
        match pfunDeclaration fuel "method" p with
        | (.error e, p1) => (.error e, p1)
        | (.ok fd, p1) =>
            if ¬ fd.isClassMethod then pclassBody fuel p1 (methods ++ [fd]) classMethods
            else pclassBody fuel p1 methods (classMethods ++ [fd])
      else (.ok (methods, classMethods), p)
termination_by structural fuel

/-- `Parser.methodArguments`: the parenthesised parameter list, at most
8 parameters. -/
def pmethodArguments (fuel : Nat) (kind : String) (p : PState) :
    Except String (List String) × PState :=
  match fuel with
  | 0 => (.error "parser fuel exhausted", p)
  | fuel + 1 =>
      match consume p .LEFTPAREN ("Expected '(' after " ++ kind ++ " name.") with
      | (.error e, p1) => (.error e, p1)
      | (.ok _, p1) =>
          match (if ¬ check p1 .RIGHTPAREN then pparamsLoop fuel p1 []
                 else (.ok [], p1) : Except String (List String) × PState) with
          | (.error e, p2) => (.error e, p2)
          | (.ok params, p2) =>
              match consume p2 .RIGHTPAREN "Expected ')' after parameters." with
              | (.error e, p3) => (.error e, p3)
              | (.ok _, p3) => (.ok params, p3)

/-- The parameter loop of `methodArguments`. -/
def pparamsLoop (fuel : Nat) (p : PState) (params : List String) :
    Except String (List String) × PState :=
  match fuel with
  | 0 => (.error "parser fuel exhausted", p)
  | fuel + 1 =>
      if params.length ≥ 8 then
        (.error (makeParseError (peek p) "Cannot have more than 8 parameters."), p)
      else
        match consume p .IDENTIFIER "Expected parameter name." with
        | (.error e, p1) => (.error e, p1)
        | (.ok param, p1) =>
            match matchT p1 [.COMMA] with
            | (true, p2) => pparamsLoop fuel p2 (params ++ [param.lexeme])
            | (false, p2) => (.ok (params ++ [param.lexeme]), p2)
termination_by structural fuel

/-- `Parser.funDeclaration`: saves the in-loop flag, clears it for the
function's extent, and restores it on every return path (the Go
`defer p.resetLoop(oldInLoop)`). -/
def pfunDeclaration (fuel : Nat) (kind : String) (p : PState) :
    Except String FunDef × PState :=
  match fuel with
  | 0 => (.error "parser fuel exhausted", p)
  | fuel + 1 =>
      let oldInLoop := p.inloop
      let p0 := { p with inloop := false }
      let restore := fun (r : Except String FunDef × PState) =>
        (r.1, { r.2 with inloop := oldInLoop })
      restore (
        let (isClassMethod, p1) := matchT p0 [.CLASS]
        match consume p1 .IDENTIFIER ("Expected " ++ kind ++ " name.") with
        | (.error e, p2) => (.error e, p2)
        | (.ok name, p2) =>
            match (if check p2 .LEFTPAREN then
                     match pmethodArguments fuel kind p2 with
                     | (.error e, p3) => (.error e, p3)
                     | (.ok ps, p3) => (.ok (some ps), p3)
                   else (.ok none, p2) : Except String (Option (List String)) × PState) with
            | (.error e, p3) => (.error e, p3)
            | (.ok params, p3) =>
                match consume p3 .LEFTBRACE
                    ("Expected " ++ sq ++ lbr ++ sq ++ " before " ++ kind ++ " body.") with
                | (.error e, p4) => (.error e, p4)
                | (.ok _, p4) =>
                    match pblock fuel p4 with
                    | (.error e, p5) => (.error e, p5)
                    | (.ok body, p5) =>
                        (.ok (FunDef.mk name.lexeme name.line (params.getD [])
                               params.isSome body 0 (-1) isClassMethod), p5))
termination_by structural fuel

/-- `Parser.varDeclaration`. -/
def pvarDeclaration (fuel : Nat) (p : PState) : Except String Stmt × PState :=
  match fuel with
  | 0 => (.error "parser fuel exhausted", p)
  | fuel + 1 =>
      match consume p .IDENTIFIER "Expected variable name." with
      | (.error e, p1) => (.error e, p1)
      | (.ok name, p1) =>
          match (match matchT p1 [.EQUAL] with
                 | (true, p2) =>
                     match pexpression fuel p2 with
                     | (.error e, p3) => (.error e, p3)
                     | (.ok e0, p3) => (.ok (some e0), p3)
                 | (false, p2) => (.ok none, p2) : Except String (Option Expr) × PState) with
          | (.error e, p2) => (.error e, p2)
          | (.ok ini, p2) =>
              match consume p2 .SEMICOLON "Expected ';' after variable declaration." with
              | (.error e, p3) => (.error e, p3)
              | (.ok _, p3) => (.ok (.svar name.lexeme name.line ini (-1)), p3)

/-- `Parser.statement`. -/
def pstatement (fuel : Nat) (p : PState) : Except String Stmt × PState :=
  match fuel with
  | 0 => (.error "parser fuel exhausted", p)
  | fuel + 1 =>
      match matchT p [.IF] with
      | (true, p1) => pifStatement fuel p1
      | (false, _) =>
      match matchT p [.WHILE] with
      | (true, p1) => pwhileStatement fuel p1
      | (false, _) =>
      match matchT p [.FOR] with
      | (true, p1) => pforStatement fuel p1
      | (false, _) =>
      match matchT p [.PRINT] with
      | (true, p1) => pprintStatement fuel p1
      | (false, _) =>
      match matchT p [.RETURN] with
      | (true, p1) => preturnStatement fuel p1
      | (false, _) =>
      match matchT p [.BREAK] with
      | (true, p1) => breakStatement p1
      | (false, _) =>
      match matchT p [.CONTINUE] with
      | (true, p1) => continueStatement p1
      | (false, _) =>
      match matchT p [.LEFTBRACE] with
      | (true, p1) =>
          match pblock fuel p1 with
          | (.error e, p2) => (.error e, p2)
          | (.ok stmts, p2) => (.ok (.sblock stmts 0), p2)
      | (false, _) => pexpressionStatement fuel p
termination_by structural fuel

/-- `Parser.block`; a nil statement from `declaration` makes the whole
block return nil with no error (the closing brace is not consumed), and
the final `consume` of the closing brace discards any error. -/
def pblock (fuel : Nat) (p : PState) : Except String (List Stmt) × PState :=
  match fuel with
  | 0 => (.error "parser fuel exhausted", p)
  | fuel + 1 => pblockGo fuel p []
termination_by structural fuel

/-- The statement loop of `Parser.block`. -/
def pblockGo (fuel : Nat) (p : PState) (acc : List Stmt) :
    Except String (List Stmt) × PState :=
  match fuel with
  | 0 => (.error "parser fuel exhausted", p)
  | fuel + 1 =>
      if ¬ check p .RIGHTBRACE ∧ ¬ isAtEnd p then
        match pdeclaration fuel p with
        | (none, p1) => (.ok [], p1)
        | (some s, p1) => pblockGo fuel p1 (acc ++ [s])
      else
        let (_, p1) := consume p .RIGHTBRACE ("Expected " ++ sq ++ rbr ++ sq ++ " after block.")
        (.ok acc, p1)
termination_by structural fuel

/-- `Parser.returnStatement`. -/
def preturnStatement (fuel : Nat) (p : PState) : Except String Stmt × PState :=
  match fuel with
  | 0 => (.error "parser fuel exhausted", p)
  | fuel + 1 =>
      let keyword := previous p
      match (if ¬ check p .SEMICOLON then
               match pexpression fuel p with
               | (.error e, p1) => (.error e, p1)
               | (.ok e0, p1) => (.ok (some e0), p1)
             else (.ok none, p) : Except String (Option Expr) × PState) with
      | (.error e, p1) => (.error e, p1)
      | (.ok value, p1) =>
          match consume p1 .SEMICOLON "Expected ';' after return value." with
          | (.error e, p2) => (.error e, p2)
          | (.ok _, p2) => (.ok (.sreturn keyword.line value), p2)

/-- `Parser.printStatement`. -/
def pprintStatement (fuel : Nat) (p : PState) : Except String Stmt × PState :=
  match fuel with
  | 0 => (.error "parser fuel exhausted", p)
  | fuel + 1 =>
      match pexpression fuel p with
      | (.error e, p1) => (.error e, p1)
      | (.ok e0, p1) =>
          match consume p1 .SEMICOLON "Expected ';' after value." with
          | (.error e, p2) => (.error e, p2)
          | (.ok _, p2) => (.ok (.sprint e0), p2)

/-- `Parser.expressionStatement`. -/
def pexpressionStatement (fuel : Nat) (p : PState) : Except String Stmt × PState :=
  match fuel with
  | 0 => (.error "parser fuel exhausted", p)
  | fuel + 1 =>
      match pexpression fuel p with
      | (.error e, p1) => (.error e, p1)
      | (.ok e0, p1) =>
          match consume p1 .SEMICOLON "Expected ';' after value." with
          | (.error e, p2) => (.error e, p2)
          | (.ok _, p2) => (.ok (.sexpr e0), p2)

/-- `Parser.ifStatement`. -/
def pifStatement (fuel : Nat) (p : PState) : Except String Stmt × PState :=
  match fuel with
  | 0 => (.error "parser fuel exhausted", p)
  | fuel + 1 =>
      match consume p .LEFTPAREN "Expected '(' after 'if'." with
      | (.error e, p1) => (.error e, p1)
      | (.ok _, p1) =>
          match pexpression fuel p1 with
          | (.error e, p2) => (.error e, p2)
          | (.ok condition, p2) =>
              match consume p2 .RIGHTPAREN "Expected ')' after 'if' condition." with
              | (.error e, p3) => (.error e, p3)
              | (.ok _, p3) =>
                  match pstatement fuel p3 with
                  | (.error e, p4) => (.error e, p4)
                  | (.ok thenBranch, p4) =>
                      match matchT p4 [.ELSE] with
                      | (true, p5) =>
                          match pstatement fuel p5 with
                          | (.error e, p6) => (.error e, p6)
                          | (.ok elseBranch, p6) =>
                              (.ok (.sif condition thenBranch (some elseBranch)), p6)
                      | (false, p5) => (.ok (.sif condition thenBranch none), p5)
termination_by structural fuel

/-- `Parser.whileStatement`: sets the in-loop flag for the extent of the
loop, restoring the saved value on every return path. -/
def pwhileStatement (fuel : Nat) (p : PState) : Except String Stmt × PState :=
  match fuel with
  | 0 => (.error "parser fuel exhausted", p)
  | fuel + 1 =>
      let oldInLoop := p.inloop
      let p0 := { p with inloop := true }
      let restore := fun (r : Except String Stmt × PState) =>
        (r.1, { r.2 with inloop := oldInLoop })
      restore (
        match consume p0 .LEFTPAREN "Expected '(' after 'while'." with
        | (.error e, p1) => (.error e, p1)
        | (.ok _, p1) =>
            match pexpression fuel p1 with
            | (.error e, p2) => (.error e, p2)
            | (.ok condition, p2) =>
                match consume p2 .RIGHTPAREN "Expected ')' after condition." with
                | (.error e, p3) => (.error e, p3)
                | (.ok _, p3) =>
                    match pstatement fuel p3 with
                    | (.error e, p4) => (.error e, p4)
                    | (.ok body, p4) => (.ok (.swhile condition body), p4))
termination_by structural fuel

/-- `Parser.forStatement`: also runs with the in-loop flag set. -/
def pforStatement (fuel : Nat) (p : PState) : Except String Stmt × PState :=
  match fuel with
  | 0 => (.error "parser fuel exhausted", p)
  | fuel + 1 =>
      let oldInLoop := p.inloop
      let p0 := { p with inloop := true }
      let restore := fun (r : Except String Stmt × PState) =>
        (r.1, { r.2 with inloop := oldInLoop })
      restore (
        match consume p0 .LEFTPAREN "Expected '(' after 'for'." with
        | (.error e, p1) => (.error e, p1)
        | (.ok _, p1) =>
            match (match matchT p1 [.SEMICOLON] with
                   | (true, p2) => (.ok none, p2)
                   | (false, _) =>
                       match matchT p1 [.VAR] with
                       | (true, p2) =>
                           match pvarDeclaration fuel p2 with
                           | (.error e, p3) => (.error e, p3)
                           | (.ok s, p3) => (.ok (some s), p3)
                       | (false, _) =>
                           match pexpressionStatement fuel p1 with
                           | (.error e, p3) => (.error e, p3)
                           | (.ok s, p3) => (.ok (some s), p3) :
                     Except String (Option Stmt) × PState) with
            | (.error e, p2) => (.error e, p2)
            | (.ok ini, p2) =>
                match (if ¬ check p2 .SEMICOLON then
                         match pexpression fuel p2 with
                         | (.error e, p3) => (.error e, p3)
                         | (.ok c, p3) => (.ok (some c), p3)
                       else (.ok none, p2) : Except String (Option Expr) × PState) with
                | (.error e, p3) => (.error e, p3)
                | (.ok condition, p3) =>
                    match consume p3 .SEMICOLON "Expect ';' after loop condition." with
                    | (.error e, p4) => (.error e, p4)
                    | (.ok _, p4) =>
                        match (if ¬ check p4 .RIGHTPAREN then
                                 match pexpression fuel p4 with
                                 | (.error e, p5) => (.error e, p5)
                                 | (.ok c, p5) => (.ok (some c), p5)
                               else (.ok none, p4) : Except String (Option Expr) × PState) with
                        | (.error e, p5) => (.error e, p5)
                        | (.ok increment, p5) =>
                            match consume p5 .RIGHTPAREN "Expected ')' after for clauses." with
                            | (.error e, p6) => (.error e, p6)
                            | (.ok _, p6) =>
                                match pstatement fuel p6 with
                                | (.error e, p7) => (.error e, p7)
                                | (.ok body, p7) =>
                                    (.ok (.sfor ini condition increment body), p7))
termination_by structural fuel

/-- `Parser.expression`. -/
def pexpression (fuel : Nat) (p : PState) : Except String Expr × PState :=
  match fuel with
  | 0 => (.error "parser fuel exhausted", p)
  | fuel + 1 => pcomma fuel p
termination_by structural fuel

/-- `Parser.comma`. -/
def pcomma (fuel : Nat) (p : PState) : Except String Expr × PState :=
  match fuel with
  | 0 => (.error "parser fuel exhausted", p)
  | fuel + 1 =>
      match passignment fuel p with
      | (.error e, p1) => (.error e, p1)
      | (.ok expr, p1) => pbinLoop fuel [.COMMA] .passignmentK expr p1
termination_by structural fuel

/-- The left-associative binary-operator loop shared by `comma`,
`equality`, `comparison`, `addition`, `multiplication` and `power`:
while one of `ops` matches, parse the right operand with `next` and fold
a `Binary` node. -/
def pbinLoop (fuel : Nat) (ops : List TokType) (next : ParserK) (expr : Expr)
    (p : PState) : Except String Expr × PState :=
  match fuel with
  | 0 => (.error "parser fuel exhausted", p)
  | fuel + 1 =>
      match matchT p ops with
      | (false, p1) => (.ok expr, p1)
      | (true, p1) =>
          let operator := previous p1
          match papply fuel next p1 with
          | (.error e, p2) => (.error e, p2)
          | (.ok right, p2) =>
              pbinLoop fuel ops next (.ebinary expr operator.type operator.line right) p2
termination_by structural fuel

/-- Dispatch a parser continuation tag (ties the recursive knot for
`pbinLoop` without higher-order recursion). -/
def papply (fuel : Nat) (k : ParserK) (p : PState) : Except String Expr × PState :=
  match fuel with
  | 0 => (.error "parser fuel exhausted", p)
  | fuel + 1 =>
      match k with
      | .passignmentK => passignment fuel p
      | .pcomparisonK => pcomparison fuel p
      | .padditionK => paddition fuel p
      | .pmultiplicationK => pmultiplication fuel p
      | .punaryK => punary fuel p
termination_by structural fuel

/-- `Parser.assignment`. -/
def passignment (fuel : Nat) (p : PState) : Except String Expr × PState :=
  match fuel with
  | 0 => (.error "parser fuel exhausted", p)
  | fuel + 1 =>
      match por fuel p with
      | (.error e, p1) => (.error e, p1)
      | (.ok expr, p1) =>
          match matchT p1 [.EQUAL] with
          | (false, p2) => (.ok expr, p2)
          | (true, p2) =>
              let equals := previous p2
              match passignment fuel p2 with
              | (.error e, p3) => (.error e, p3)
              | (.ok value, p3) =>
                  match expr with
                  | .evar name line _ _ => (.ok (.eassign name line value (-1) (-1)), p3)
                  | .eget obj name line => (.ok (.eset obj name line value), p3)
                  | _ => (.error (makeParseError equals "Invalid assignment target."), p3)
termination_by structural fuel

/-- `Parser.or`. -/
def por (fuel : Nat) (p : PState) : Except String Expr × PState :=
  match fuel with
  | 0 => (.error "parser fuel exhausted", p)
  | fuel + 1 =>
      match pand fuel p with
      | (.error e, p1) => (.error e, p1)
      | (.ok expr, p1) => plogicalLoop fuel .OR expr p1
termination_by structural fuel

/-- `Parser.and`. -/
def pand (fuel : Nat) (p : PState) : Except String Expr × PState :=
  match fuel with
  | 0 => (.error "parser fuel exhausted", p)
  | fuel + 1 =>
      match pternary fuel p with
      | (.error e, p1) => (.error e, p1)
      | (.ok expr, p1) => plogicalLoop fuel .AND expr p1
termination_by structural fuel

/-- The loop of `or`/`and`, folding `Logical` nodes. -/
def plogicalLoop (fuel : Nat) (op : TokType) (expr : Expr) (p : PState) :
    Except String Expr × PState :=
  match fuel with
  | 0 => (.error "parser fuel exhausted", p)
  | fuel + 1 =>
      match matchT p [op] with
      | (false, p1) => (.ok expr, p1)
      | (true, p1) =>
          let operator := previous p1
          match (if op = .OR then pand fuel p1 else pternary fuel p1) with
          | (.error e, p2) => (.error e, p2)
          | (.ok right, p2) =>
              plogicalLoop fuel op (.elogical expr operator.type right) p2
termination_by structural fuel

/-- `Parser.ternary`. -/
def pternary (fuel : Nat) (p : PState) : Except String Expr × PState :=
  match fuel with
  | 0 => (.error "parser fuel exhausted", p)
  | fuel + 1 =>
      match pequality fuel p with
      | (.error e, p1) => (.error e, p1)
      | (.ok cond, p1) =>
          match matchT p1 [.QUESTIONMARK] with
          | (false, p2) => (.ok cond, p2)
          | (true, p2) =>
              match pexpression fuel p2 with
              | (.error e, p3) => (.error e, p3)
              | (.ok thenClause, p3) =>
                  match consume p3 .COLON "Expected ':' in ternary operator." with
                  | (.error e, p4) => (.error e, p4)
                  | (.ok _, p4) =>
                      match pexpression fuel p4 with
                      | (.error e, p5) => (.error e, p5)
                      | (.ok elseClause, p5) =>
                          (.ok (.eternary cond thenClause elseClause), p5)
termination_by structural fuel

/-- `Parser.equality`. -/
def pequality (fuel : Nat) (p : PState) : Except String Expr × PState :=
  match fuel with
  | 0 => (.error "parser fuel exhausted", p)
  | fuel + 1 =>
      match pcomparison fuel p with
      | (.error e, p1) => (.error e, p1)
      | (.ok expr, p1) => pbinLoop fuel [.BANGEQUAL, .EQUALEQUAL] .pcomparisonK expr p1
termination_by structural fuel

/-- `Parser.comparison`. -/
def pcomparison (fuel : Nat) (p : PState) : Except String Expr × PState :=
  match fuel with
  | 0 => (.error "parser fuel exhausted", p)
  | fuel + 1 =>
      match paddition fuel p with
      | (.error e, p1) => (.error e, p1)
      | (.ok expr, p1) =>
          pbinLoop fuel [.GREATER, .GREATEREQUAL, .LESS, .LESSEQUAL] .padditionK expr p1
termination_by structural fuel

/-- `Parser.addition`. -/
def paddition (fuel : Nat) (p : PState) : Except String Expr × PState :=
  match fuel with
  | 0 => (.error "parser fuel exhausted", p)
  | fuel + 1 =>
      match pmultiplication fuel p with
      | (.error e, p1) => (.error e, p1)
      | (.ok expr, p1) => pbinLoop fuel [.PLUS, .MINUS] .pmultiplicationK expr p1
termination_by structural fuel

/-- `Parser.multiplication`. -/
def pmultiplication (fuel : Nat) (p : PState) : Except String Expr × PState :=
  match fuel with
  | 0 => (.error "parser fuel exhausted", p)
  | fuel + 1 =>
      match punary fuel p with
      | (.error e, p1) => (.error e, p1)
      | (.ok expr, p1) => pbinLoop fuel [.STAR, .SLASH] .punaryK expr p1
termination_by structural fuel

/-- `Parser.unary`. -/
def punary (fuel : Nat) (p : PState) : Except String Expr × PState :=
  match fuel with
  | 0 => (.error "parser fuel exhausted", p)
  | fuel + 1 =>
      match matchT p [.BANG, .MINUS] with
      | (true, p1) =>
          let operator := previous p1
          match punary fuel p1 with
          | (.error e, p2) => (.error e, p2)
          | (.ok right, p2) => (.ok (.eunary operator.type operator.line right), p2)
      | (false, _) => ppower fuel p
termination_by structural fuel

/-- `Parser.power` (right operand parsed by `unary`, giving right
associativity). -/
def ppower (fuel : Nat) (p : PState) : Except String Expr × PState :=
  match fuel with
  | 0 => (.error "parser fuel exhausted", p)
  | fuel + 1 =>
      match pcall fuel p with
      | (.error e, p1) => (.error e, p1)
      | (.ok expr, p1) => pbinLoop fuel [.POWER] .punaryK expr p1
termination_by structural fuel

/-- `Parser.call`. -/
def pcall (fuel : Nat) (p : PState) : Except String Expr × PState :=
  match fuel with
  | 0 => (.error "parser fuel exhausted", p)
  | fuel + 1 =>
      match pprimary fuel p with
      | (.error e, p1) => (.error e, p1)
      | (.ok expr, p1) => pcallLoop fuel expr p1
termination_by structural fuel

/-- The call/property suffix loop of `Parser.call`. -/
def pcallLoop (fuel : Nat) (expr : Expr) (p : PState) :
    Except String Expr × PState :=
  match fuel with
  | 0 => (.error "parser fuel exhausted", p)
  | fuel + 1 =>
      match matchT p [.LEFTPAREN] with
      | (true, p1) =>
          match pfinishCall fuel expr p1 with
          | (.error e, p2) => (.error e, p2)
          | (.ok expr1, p2) => pcallLoop fuel expr1 p2
      | (false, _) =>
          match matchT p [.DOT] with
          | (true, p1) =>
              match consume p1 .IDENTIFIER "Expected property name after '.'" with
              | (.error e, p2) => (.error e, p2)
              | (.ok name, p2) => pcallLoop fuel (.eget expr name.lexeme name.line) p2
          | (false, p1) => (.ok expr, p1)
termination_by structural fuel

/-- `Parser.finishCall`: at most 8 arguments, each parsed with
`assignment` (the comma operator is excluded in argument position). -/
def pfinishCall (fuel : Nat) (callee : Expr) (p : PState) :
    Except String Expr × PState :=
  match fuel with
  | 0 => (.error "parser fuel exhausted", p)
  | fuel + 1 =>
      match (if ¬ check p .RIGHTPAREN then pargsLoop fuel p []
             else (.ok [], p) : Except String (List Expr) × PState) with
      | (.error e, p1) => (.error e, p1)
      | (.ok args, p1) =>
          match consume p1 .RIGHTPAREN "Expected ')' after arguments." with
          | (.error e, p2) => (.error e, p2)
          | (.ok paren, p2) => (.ok (.ecall callee paren.line args), p2)
termination_by structural fuel

/-- The argument loop of `finishCall`. -/
def pargsLoop (fuel : Nat) (p : PState) (args : List Expr) :
    Except String (List Expr) × PState :=
  match fuel with
  | 0 => (.error "parser fuel exhausted", p)
  | fuel + 1 =>
      match passignment fuel p with
      | (.error e, p1) => (.error e, p1)
      | (.ok arg, p1) =>
          if args.length ≥ 8 then
            (.error (makeParseError (peek p1) "Cannot have more than 8 arguments."), p1)
          else
            match matchT p1 [.COMMA] with
            | (true, p2) => pargsLoop fuel p2 (args ++ [arg])
            | (false, p2) => (.ok (args ++ [arg]), p2)
termination_by structural fuel

/-- `Parser.primary`. -/
def pprimary (fuel : Nat) (p : PState) : Except String Expr × PState :=
  match fuel with
  | 0 => (.error "parser fuel exhausted", p)
  | fuel + 1 =>
      match matchT p [.FALSE] with
      | (true, p1) => (.ok (.elit (.vbool false)), p1)
      | (false, _) =>
      match matchT p [.TRUE] with
      | (true, p1) => (.ok (.elit (.vbool true)), p1)
      | (false, _) =>
      match matchT p [.NIL] with
      | (true, p1) => (.ok (.elit .vnil), p1)
      | (false, _) =>
      match matchT p [.NUMBER, .STRINGLIT] with
      | (true, p1) => (.ok (.elit (previous p1).literal), p1)
      | (false, _) =>
      match matchT p [.SUPER] with
      | (true, p1) =>
          let keyword := previous p1
          match consume p1 .DOT "Expected '.' after 'super'." with
          | (.error e, p2) => (.error e, p2)
          | (.ok _, p2) =>
              match consume p2 .IDENTIFIER "Expected superclass method name." with
              | (.error e, p3) => (.error e, p3)
              | (.ok method, p3) =>
                  -- Go builds `&ast.Super{Keyword, Method}`: EnvDepth keeps
                  -- its zero value 0.
                  (.ok (.esuper keyword.line method.lexeme 0), p3)
      | (false, _) =>
      match matchT p [.THIS] with
      | (true, p1) => (.ok (.ethis (previous p1).line (-1) (-1)), p1)
      | (false, _) =>
      match matchT p [.LEFTPAREN] with
      | (true, p1) =>
          match pexpression fuel p1 with
          | (.error e, p2) => (.error e, p2)
          | (.ok expr, p2) =>
              match consume p2 .RIGHTPAREN "Expected ')' after expression." with
              | (.error e, p3) => (.error e, p3)
              | (.ok _, p3) => (.ok (.egroup expr), p3)
      | (false, _) =>
      match matchT p [.IDENTIFIER] with
      | (true, p1) => (.ok (.evar (previous p1).lexeme (previous p1).line (-1) (-1)), p1)
      | (false, _) => (.error (makeParseError (peek p) "Expected expression"), p)
termination_by structural fuel

end

/-- `Parser.Parse`: the top-level statement loop; a failed declaration
contributes a nil statement (the Go code appends the nil pointer). -/
def pparse (fuel : Nat) : PState → List (Option Stmt) → List (Option Stmt) × PState
  | p, acc =>
      match fuel with
      | 0 => (acc, p)
      | fuel + 1 =>
          if ¬ isAtEnd p then
            let (s, p1) := pdeclaration fuel p
            pparse fuel p1 (acc ++ [s])
          else (acc, p)

/-- `parser.New` + `Parser.Parse` from a token list. -/
def parseTokens (fuel : Nat) (tokens : List Tok) : List (Option Stmt) × PState :=
  pparse fuel ⟨tokens, 0, false, false, []⟩ []

end Golox

namespace Golox

/-- Decidable equality for evaluator results (kept executable so that
`decide` can run the evaluator inside the kernel). -/
def exceptDecEq {ε α : Type} [DecidableEq ε] [DecidableEq α] :
    DecidableEq (Except ε α) := fun a b =>
  match a, b with
  | .ok x, .ok y =>
      if h : x = y then isTrue (by rw [h])
      else isFalse (fun c => by cases c; exact h rfl)
  | .error x, .error y =>
      if h : x = y then isTrue (by rw [h])
      else isFalse (fun c => by cases c; exact h rfl)
  | .ok _, .error _ => isFalse (fun c => Except.noConfusion c)
  | .error _, .ok _ => isFalse (fun c => Except.noConfusion c)

instance {ε α : Type} [DecidableEq ε] [DecidableEq α] : DecidableEq (Except ε α) :=
  exceptDecEq

/- ### Concrete programs used by the theorems

Each is the parser's output for the quoted Lox source: annotation
indices `-1`, block/function sizes 0. -/

/-- `var a; print a;` — an uninitialized global read. -/
def progUninitGlobal : List Stmt :=
  [.svar "a" 1 none (-1), .sprint (.evar "a" 2 (-1) (-1))]

/-- `{ var a; print a; }` — an uninitialized resolver-indexed local
read. -/
def progUninitLocal : List Stmt :=
  [.sblock [.svar "a" 1 none (-1), .sprint (.evar "a" 2 (-1) (-1))] 0]

/-- C1.  Reading a `var` declared without initializer before its first
assignment produces the runtime error "Uninitialized variable access:
'a'" when the variable is a global (string-keyed lookup, index −1) — but
NOT when it is a resolver-indexed local: the indexed branch of
`Environment.Get` returns the slot's contents without the sentinel
check, so the sentinel value itself flows out of the read (and here gets
printed), with no runtime error.  Both programs are resolved by the
embedded resolver and executed through the embedded driver exactly as
`main.run` would. -/
theorem C1_uninitialized_local_read_returns_sentinel :
    (((runModel 100 progUninitGlobal false 0).interp.map (·.errMsgs)) =
        some [mkErr ("Uninitialized variable access: " ++ sq ++ "a" ++ sq) 2] ∧
     ((runModel 100 progUninitGlobal false 0).interp.map (·.hadRuntimeError)) = some true ∧
     ((runModel 100 progUninitGlobal false 0).interp.map (·.st.output)) = some []) ∧
    (((runModel 100 progUninitLocal false 0).interp.map (·.errMsgs)) = some [] ∧
     ((runModel 100 progUninitLocal false 0).interp.map (·.hadRuntimeError)) = some false ∧
     ((runModel 100 progUninitLocal false 0).interp.map (·.st.output)) =
        some [Value.vuninit]) := by
  decide

/-- `return 5;` at top level — a semantic (resolver) error. -/
def progReturn5 : List Stmt := [.sreturn 1 (some (.elit (.vnum 5)))]

/-- `print nope;` — an undefined global read, a runtime error. -/
def progRtErr : List Stmt := [.sprint (.evar "nope" 1 (-1) (-1))]

/-- C4.  File-mode exit codes: 64 for more than one argument, 65 after a
parse error, 70 after a runtime error — but a run whose resolution
aborts with a semantic error exits 0, not 70: `run` prints the
resolution error and returns without setting `semanticerror.HadError`
(`MakeSemanticError` only constructs the error value, and nothing on
this path calls `semanticerror.Print`), so `runFile` falls through both
exit branches. -/
theorem C4_semantic_error_exits_zero :
    mainExitCode 2 100 [] false 0 = some 64 ∧
    runFileExitCode 100 [] true 0 = 65 ∧
    runFileExitCode 100 progRtErr false 0 = 70 ∧
    (runModel 100 progReturn5 false 0).resolveErrPrinted =
      some "Cannot return from top-level code." ∧
    runFileExitCode 100 progReturn5 false 0 = 0 := by
  decide

/-- C9.  `clock` returns a Go `int` (`time.Now().Second()`), which
`checkNumberOperand` accepts — but the subsequent `right.(float64)` type
assertion in the unary-minus evaluator then fails, so `- clock()` is a
Go panic (an interface-conversion crash), neither a value nor the
runtime error "Operand must be a number".  For a `float64` operand the
negation succeeds, and for a non-number the documented runtime error is
produced: the operand check is *not* sufficient to make the narrowing
safe. -/
theorem C9_unary_minus_clock_panics :
    (evalExpr 10 (.ecall (.evar "clock" 1 (-1) (-1)) 1 []) 0 (initialSt 30)).1 =
      .ok (.vint 30) ∧
    checkNum (.vint 30) = true ∧
    (evalExpr 10 (.eunary .MINUS 1 (.ecall (.evar "clock" 1 (-1) (-1)) 1 [])) 0
        (initialSt 30)).1 =
      .error (.fatal "interface conversion: int is not float64") ∧
    (evalExpr 10 (.eunary .MINUS 1 (.elit (.vnum 3))) 0 (initialSt 30)).1 =
      .ok (.vnum (-3)) ∧
    (evalExpr 10 (.eunary .MINUS 1 (.elit (.vstr "x"))) 0 (initialSt 30)).1 =
      .error (.rt (mkErr "Operand must be a number" 1)) := by
  decide

end Golox

namespace Golox

/-- The spec's closure test:
`var a = "global"; { fun f() { print a; } f(); var a = "block"; f(); }`
as produced by the parser. -/
def progC3 : List Stmt :=
  [.svar "a" 1 (some (.elit (.vstr "global"))) (-1),
   .sblock [
     .sfun (FunDef.mk "f" 3 [] true [.sprint (.evar "a" 3 (-1) (-1))] 0 (-1) false),
     .sexpr (.ecall (.evar "f" 4 (-1) (-1)) 4 []),
     .svar "a" 5 (some (.elit (.vstr "block"))) (-1),
     .sexpr (.ecall (.evar "f" 6 (-1) (-1)) 6 [])
   ] 0]

set_option maxHeartbeats 2000000 in
/-- C3 (counterexample).  Under the golox driver the closure-test
program never prints anything: the shadowing block-local `a` declared on
line 5 is never read, resolution reports it unused, and `run` returns
without interpreting the program (one unused local reported, interpreter
never invoked), so the claimed output "global", "global" is not
produced by a run of the program. -/
theorem C3_driver_rejects_closure_program :
    (runModel 100 progC3 false 0).executed = false ∧
    (runModel 100 progC3 false 0).unusedReported = 1 ∧
    (runModel 100 progC3 false 0).interp.isNone = true ∧
    (runModel 100 progC3 false 0).resolveErrPrinted.isNone = true ∧
    ((golResolve 100 progC3).toOption.map (·.2)) = some [⟨0, "a", 5⟩] := by
  decide

set_option maxHeartbeats 2000000 in
/-- C3 (amended).  The embedded resolver binds the reference to `a`
inside `f` before the shadowing declaration exists, leaving it a global
reference; interpreting the resolver's output (what
`interpreter.Interpret` does when invoked on the resolved program)
prints the original binding "global" twice with no runtime error — the
observed value is fixed by the textual scope at the point of reference,
not by the call history.  The driver itself, however, refuses to run the
program, reporting the shadowing local as unused
(`C3_driver_rejects_closure_program`). -/
theorem C3_lexical_scoping_resolved :
    ((golResolve 100 progC3).toOption.map
       (fun r => (interpret 100 r.1 (initialSt 0) false []).st.output)) =
      some [.vstr "global", .vstr "global"] ∧
    ((golResolve 100 progC3).toOption.map
       (fun r => (interpret 100 r.1 (initialSt 0) false []).hadRuntimeError)) =
      some false := by
  decide

end Golox

namespace Golox

/-- The comma expression `a = a + 1 , a` (parser output). -/
def commaE : Expr :=
  .ebinary
    (.eassign "a" 2 (.ebinary (.evar "a" 2 (-1) (-1)) .PLUS 2 (.elit (.vnum 1))) (-1) (-1))
    .COMMA 2 (.evar "a" 2 (-1) (-1))

/-- The global state with `a` bound to `q`. -/
def stWithA (q : ℚ) : St := envDefine (initialSt 0) 0 "a" (.vnum q) (-1)

/-- C6 (counterexample).  Starting from global `a = 0`, evaluating the
comma expression `a = a + 1 , a` leaves `a = 2` and yields 2: the
assignment's side effect happened twice, not once — the `Binary`
evaluator evaluates both operands before dispatching on the operator,
and its `COMMA` case then evaluates both operands again. -/
theorem C6_comma_double_effect_counterexample :
    (evalExpr 10 commaE 0 (stWithA 0)).1 = .ok (.vnum 2) ∧
    ((evalExpr 10 commaE 0 (stWithA 0)).2.frames.map (·.values)) =
      [[("clock", .vnative 0 0), ("a", .vnum 2)]] ∧
    (.vnum 2 : Value) ≠ .vnum 1 := by
  with_unfolding_all decide

/-- C6 (amended).  For *every* comma expression `left , right`: the
generic `Binary` evaluator first evaluates `left` and then `right`, and
its `COMMA` case then evaluates `left` and `right` a second time — each
operand is evaluated exactly twice per evaluation of the comma
expression (the hypotheses thread the state through the four successive
operand evaluations, so any side effect in an operand occurs twice),
and the whole expression yields the value produced by the *second*
evaluation of the right operand, in the state that evaluation leaves. -/
theorem C6_comma_evaluates_operands_twice (fuel : Nat) (l r : Expr) (line : Nat)
    (env : Nat) (st : St) (a : Value) (st1 : St) (b : Value) (st2 : St)
    (a2 : Value) (st3 : St) (b2 : Value) (st4 : St)
    (hl1 : evalExpr fuel l env st = (.ok a, st1))
    (hr1 : evalExpr fuel r env st1 = (.ok b, st2))
    (hl2 : evalExpr fuel l env st2 = (.ok a2, st3))
    (hr2 : evalExpr fuel r env st3 = (.ok b2, st4)) :
    evalExpr (fuel + 1) (.ebinary l .COMMA line r) env st = (.ok b2, st4) := by
  simp [evalExpr, hl1, hr1, hl2, hr2]

/-- Concrete instantiation of `C6_comma_evaluates_operands_twice` on
`a = a + 1 , a` from global `a = 0`: the four operand evaluations step
the state through `a = 1` and `a = 2`, and the comma expression yields
2 — the second evaluation of the right operand. -/
theorem C6_comma_evaluates_operands_twice_witness :
    evalExpr 10 commaE 0 (stWithA 0) = (.ok (.vnum 2), stWithA 2) := by
  exact C6_comma_evaluates_operands_twice 9
    (.eassign "a" 2 (.ebinary (.evar "a" 2 (-1) (-1)) .PLUS 2 (.elit (.vnum 1))) (-1) (-1))
    (.evar "a" 2 (-1) (-1)) 2 0 (stWithA 0)
    (.vnum 1) (stWithA 1) (.vnum 1) (stWithA 1)
    (.vnum 2) (stWithA 2) (.vnum 2) (stWithA 2)
    (by with_unfolding_all rfl) (by with_unfolding_all rfl)
    (by with_unfolding_all rfl) (by with_unfolding_all rfl)

end Golox

namespace Golox

/-- The Go `PropertyAccessor` type assertion of the `Get`/`Set`
evaluator cases: satisfied by class instances *and* by classes
(`*Class` implements `Get`/`Set` for static methods and class fields). -/
def isAccessor : Value → Bool
  | .vinst _ => true
  | .vclass _ => true
  | _ => false

/-- `class C {} var o = C();` — builds a class and an instance. -/
def progC5 : List Stmt :=
  [.sclass "C" 1 none [] [] (-1),
   .svar "o" 2 (some (.ecall (.evar "C" 2 (-1) (-1)) 2 [])) (-1)]

/-- The state after running `progC5`: global `C ↦ class 0`,
`o ↦ instance 0`. -/
def st5 : St := (interpret 100 progC5 (initialSt 0) false []).st

set_option maxHeartbeats 1000000 in
/-- C5 (counterexample).  Evaluating `o.x = 5` on a class instance
writes the field but yields `nil`, not the assigned value 5
(`ClassInstance.Set` returns `nil, nil` and the `Set` evaluator returns
that result); and evaluating `C.x = 5` on a class — which is not a class
instance — does not fail either, because `*Class` also satisfies the
`PropertyAccessor` assertion. -/
theorem C5_set_returns_nil_counterexample :
    (evalExpr 10 (.eset (.evar "o" 3 (-1) (-1)) "x" 3 (.elit (.vnum 5))) 0 st5).1 =
      .ok .vnil ∧
    (.vnil : Value) ≠ .vnum 5 ∧
    ((evalExpr 10 (.eset (.evar "o" 3 (-1) (-1)) "x" 3 (.elit (.vnum 5))) 0 st5).2.insts.map
       (·.fields)) = [[("x", .vnum 5)]] ∧
    (evalExpr 10 (.eset (.evar "C" 3 (-1) (-1)) "x" 3 (.elit (.vnum 5))) 0 st5).1 =
      .ok .vnil := by
  with_unfolding_all decide

/-- C5 (amended).  For every `Set` expression `target.name = value`: if
the evaluated target satisfies neither accessor shape (neither instance
nor class), evaluation fails with "Only instances have properties.";
if the target is an instance (or a class), the evaluated value is
written into its field map and the `Set` expression itself evaluates to
`nil` — the result of `Set`, not the assigned value. -/
theorem C5_set_semantics (fuel : Nat) (obj : Expr) (name : String) (line : Nat)
    (v : Expr) (env : Nat) (st : St) (ov : Value) (st1 : St)
    (hobj : evalExpr fuel obj env st = (.ok ov, st1)) :
    (isAccessor ov = false →
       evalExpr (fuel + 1) (.eset obj name line v) env st =
         (.error (.rt (mkErr "Only instances have properties." line)), st1)) ∧
    (∀ r w st2 inst, ov = .vinst r →
       evalExpr fuel v env st1 = (.ok w, st2) →
       st2.insts[r]? = some inst →
       evalExpr (fuel + 1) (.eset obj name line v) env st =
         (.ok .vnil,
          { st2 with insts :=
              st2.insts.set r { inst with fields := mapPut inst.fields name w } })) ∧
    (∀ r w st2 c, ov = .vclass r →
       evalExpr fuel v env st1 = (.ok w, st2) →
       st2.classes[r]? = some c →
       evalExpr (fuel + 1) (.eset obj name line v) env st =
         (.ok .vnil,
          { st2 with classes :=
              st2.classes.set r { c with fields := mapPut c.fields name w } })) := by
  refine ⟨?_, ?_, ?_⟩
  · intro hna
    cases ov <;> simp_all [evalExpr, isAccessor]
  · intro r w st2 inst hov hv hget
    subst hov
    simp [evalExpr, hobj, hv, hget]
  · intro r w st2 c hov hv hget
    subst hov
    simp [evalExpr, hobj, hv, hget]

set_option maxHeartbeats 1000000 in
/-- Concrete instantiation of `C5_set_semantics` on `st5`. -/
theorem C5_set_semantics_witness :
    evalExpr 10 (.eset (.evar "o" 3 (-1) (-1)) "x" 3 (.elit (.vnum 5))) 0 st5 =
      (.ok .vnil,
       { st5 with insts := st5.insts.set 0 ⟨0, mapPut [] "x" (.vnum 5)⟩ }) ∧
    evalExpr 10 (.eset (.elit (.vstr "s")) "x" 3 (.elit (.vnum 5))) 0 st5 =
      (.error (.rt (mkErr "Only instances have properties." 3)), st5) := by
  constructor
  · exact (C5_set_semantics 9 (.evar "o" 3 (-1) (-1)) "x" 3 (.elit (.vnum 5)) 0 st5
      (.vinst 0) st5 (by with_unfolding_all rfl)).2.1 0 (.vnum 5) st5 ⟨0, []⟩ rfl
      (by with_unfolding_all rfl) (by with_unfolding_all rfl)
  · exact (C5_set_semantics 9 (.elit (.vstr "s")) "x" 3 (.elit (.vnum 5)) 0 st5
      (.vstr "s") st5 rfl).1 rfl

end Golox

namespace Golox

/-- C2.  (1) `Class.Call` always returns the freshly-constructed
instance (the next instance-heap slot of the entry state) whenever the
call succeeds — whatever the `init` call produced is discarded.
(2) At the `UserFunction.Call` boundary of a function whose
`IsInitializer` flag is set, every successful result is the bound `this`
read from slot 0 of the function's closure — both when the body raised a
`Return` signal (explicit `return`) and when it fell off the end. -/
theorem C2_initializer_returns_instance :
    (∀ (fuel cref : Nat) (args : List Value) (st : St) (v : Value) (st1 : St),
       classCall fuel cref args st = (.ok v, st1) → v = .vinst st.insts.length) ∧
    (∀ (fuel fref : Nat) (args : List Value) (st : St) (u : UserFn) (v : Value) (st1 : St),
       st.funcs.get? fref = some u → u.isInitializer = true →
       userFunctionCall fuel fref args st = (.ok v, st1) →
       envGetAt st1 u.closure 0 "this" 0 0 = .ok v) := by
  constructor
  · intro fuel cref args st v st1 h
    cases fuel with
    | zero => simp [classCall] at h
    | succ fuel =>
        unfold classCall at h
        split at h
        · simp at h
        · split at h
          · split at h
            · simp at h
            · simp_all
          · simp_all
  · intro fuel fref args st u v st1 hu hinit h
    cases fuel with
    | zero => simp [userFunctionCall] at h
    | succ fuel =>
        unfold userFunctionCall at h
        rw [hu] at h
        simp only [] at h
        split at h
        · simp at h
        · split at h
          · rw [hinit] at h
            simp only [if_true] at h
            obtain ⟨h1, h2⟩ := Prod.mk.injEq .. ▸ h
            rw [← h1, h2]
          · simp at h
          · rw [hinit] at h
            simp only [if_true] at h
            obtain ⟨h1, h2⟩ := Prod.mk.injEq .. ▸ h
            rw [← h1, h2]

end Golox

namespace Golox

/-- `class C { init() { return; } }` (parser output). -/
def c2class : Stmt :=
  .sclass "C" 1 none [FunDef.mk "init" 1 [] true [.sreturn 1 none] 0 (-1) false] [] (-1)

/-- The state after evaluating the class declaration. -/
def stC2 : St := (evalStmt 50 c2class 0 (initialSt 0)).2

/-- `Class.Call`'s freshly-allocated instance state for `C()`. -/
def stC2i : St := instAlloc stC2 0

/-- The bound `init` created by `Class.Call` (definition, closure = the
`this` frame 1, initializer flag set). -/
def uInitC2 : UserFn :=
  ⟨FunDef.mk "init" 1 [] true [.sreturn 1 none] 0 (-1) false, 1, true, 0⟩

set_option maxHeartbeats 1000000 in
/-- Concrete instantiation of `C2_initializer_returns_instance`:
calling class `C` (whose `init` body is an explicit bare `return`)
produces exactly the fresh instance, and the bound initializer's call
boundary returns the `this` stored in slot 0 of its closure. -/
theorem C2_initializer_returns_instance_witness :
    Value.vinst 0 = Value.vinst stC2.insts.length ∧
    envGetAt (userFunctionCall 39 (bindFn stC2i 0 0).1 [] (bindFn stC2i 0 0).2).2
      uInitC2.closure 0 "this" 0 0 = .ok (.vinst 0) := by
  constructor
  · exact C2_initializer_returns_instance.1 40 0 [] stC2 (.vinst 0)
      (classCall 40 0 [] stC2).2 (by with_unfolding_all rfl)
  · exact C2_initializer_returns_instance.2 39 (bindFn stC2i 0 0).1 []
      (bindFn stC2i 0 0).2 uInitC2 (.vinst 0)
      (userFunctionCall 39 (bindFn stC2i 0 0).1 [] (bindFn stC2i 0 0).2).2
      (by with_unfolding_all rfl) rfl (by with_unfolding_all rfl)

end Golox

namespace Golox

/-- C7.  In the `Call` evaluator, once the callee and the argument list
have been evaluated: a non-callable callee fails with "Can only call
functions and classes."; a callable whose arity differs from the number
of arguments fails with exactly "Expected A arguments but got N." (A the
arity, N the argument count, with the call parenthesis line) — and in
both cases the state is exactly the post-argument-evaluation state: the
callee is not invoked. -/
theorem C7_call_arity (fuel : Nat) (callee : Expr) (line : Nat) (args : List Expr)
    (env : Nat) (st : St) (cv : Value) (st1 : St) (vs : List Value) (st2 : St)
    (hc : evalExpr fuel callee env st = (.ok cv, st1))
    (ha : evalArgs fuel args env st1 = (.ok vs, st2)) :
    (isCallable cv = false →
       evalExpr (fuel + 1) (.ecall callee line args) env st =
         (.error (.rt (mkErr "Can only call functions and classes." line)), st2)) ∧
    (∀ a : Nat, arityOf st2 cv = some a → a ≠ vs.length →
       evalExpr (fuel + 1) (.ecall callee line args) env st =
         (.error (.rt (mkErr ("Expected " ++ toString a ++ " arguments but got " ++
            toString vs.length ++ ".") line)), st2)) := by
  constructor
  · intro hna
    cases cv <;> simp_all [evalExpr, isCallable]
  · intro a haq hne
    cases cv with
    | vnative id ar =>
        simp only [arityOf, Option.some.injEq] at haq
        subst haq
        simp [evalExpr, hc, ha, hne]
    | vfunc ref =>
        simp only [arityOf] at haq
        cases hu : st2.funcs.get? ref with
        | none => rw [hu] at haq; simp at haq
        | some u =>
            rw [hu] at haq
            simp only [Option.some.injEq] at haq
            subst haq
            simp only [List.get?_eq_getElem?] at hu
            simp [evalExpr, hc, ha, hu, hne]
    | vclass ref =>
        simp only [arityOf, Option.some.injEq] at haq
        subst haq
        simp [evalExpr, hc, ha, hne]
    | _ => simp [arityOf] at haq

end Golox

namespace Golox

/-- Concrete instantiation of `C7_call_arity`: `clock(1)` fails with
"Expected 0 arguments but got 1." and `3()` fails with "Can only call
functions and classes.", both leaving the state untouched. -/
theorem C7_call_arity_witness :
    evalExpr 10 (.ecall (.evar "clock" 1 (-1) (-1)) 1 [.elit (.vnum 1)]) 0 (initialSt 0) =
      (.error (.rt (mkErr "Expected 0 arguments but got 1." 1)), initialSt 0) ∧
    evalExpr 10 (.ecall (.elit (.vnum 3)) 1 []) 0 (initialSt 0) =
      (.error (.rt (mkErr "Can only call functions and classes." 1)), initialSt 0) := by
  constructor
  · exact (C7_call_arity 9 (.evar "clock" 1 (-1) (-1)) 1 [.elit (.vnum 1)] 0 (initialSt 0)
      (.vnative 0 0) (initialSt 0) [.vnum 1] (initialSt 0) (by with_unfolding_all rfl)
      (by with_unfolding_all rfl)).2 0 rfl (by decide)
  · exact (C7_call_arity 9 (.elit (.vnum 3)) 1 [] 0 (initialSt 0)
      (.vnum 3) (initialSt 0) [] (initialSt 0) (by with_unfolding_all rfl)
      (by with_unfolding_all rfl)).1 rfl

end Golox

namespace Golox

/-- C8.  (1) Once both operands evaluate, `==` and `!=` always succeed:
`==` yields `isEqual a b`, `!=` yields its boolean negation — so
`(a == b) = !(a != b)` by construction.  (2) `Nil` equals only `Nil`
(on either side).  (3) Values of different dynamic types always compare
unequal. -/
theorem C8_equality_total :
    (∀ (fuel : Nat) (le re : Expr) (line : Nat) (env : Nat) (st : St)
       (a b : Value) (st1 st2 : St),
       evalExpr fuel le env st = (.ok a, st1) →
       evalExpr fuel re env st1 = (.ok b, st2) →
       evalExpr (fuel + 1) (.ebinary le .EQUALEQUAL line re) env st =
         (.ok (.vbool (isEqual a b)), st2) ∧
       evalExpr (fuel + 1) (.ebinary le .BANGEQUAL line re) env st =
         (.ok (.vbool (!isEqual a b)), st2)) ∧
    (∀ a : Value, isEqual .vnil a = decide (a = .vnil) ∧
       isEqual a .vnil = decide (a = .vnil)) ∧
    (∀ a b : Value, a.ctorIdx ≠ b.ctorIdx → isEqual a b = false) := by
  refine ⟨?_, ?_, ?_⟩
  · intro fuel le re line env st a b st1 st2 hl hr
    constructor <;> simp [evalExpr, hl, hr]
  · intro a
    cases a <;> simp [isEqual]
  · intro a b hne
    by_cases hab : a = b
    · subst hab
      exact absurd rfl hne
    · cases a <;> cases b <;> simp_all [isEqual]

end Golox

namespace Golox

/-- Concrete instantiation of `C8_equality_total`: comparing the number
1 with the string "x" — both operators succeed, the results are exact
boolean negations of each other, and the cross-type comparison is
false. -/
theorem C8_equality_total_witness :
    evalExpr 5 (.ebinary (.elit (.vnum 1)) .EQUALEQUAL 1 (.elit (.vstr "x"))) 0 (initialSt 0) =
      (.ok (.vbool (isEqual (.vnum 1) (.vstr "x"))), initialSt 0) ∧
    evalExpr 5 (.ebinary (.elit (.vnum 1)) .BANGEQUAL 1 (.elit (.vstr "x"))) 0 (initialSt 0) =
      (.ok (.vbool (!isEqual (.vnum 1) (.vstr "x"))), initialSt 0) ∧
    isEqual (.vnum 1) (.vstr "x") = false := by
  have h := C8_equality_total.1 4 (.elit (.vnum 1)) (.elit (.vstr "x")) 1 0 (initialSt 0)
    (.vnum 1) (.vstr "x") (initialSt 0) (initialSt 0) rfl rfl
  exact ⟨h.1, h.2, C8_equality_total.2.2 (.vnum 1) (.vstr "x") (by decide)⟩

end Golox

namespace Golox

/-- Identifier token. -/
def idTok (s : String) (l : Nat) : Tok := ⟨.IDENTIFIER, s, .vnil, l⟩

/-- Keyword/punctuation token. -/
def kw (t : TokType) (s : String) (l : Nat) : Tok := ⟨t, s, .vnil, l⟩

/-- Token stream of `fun f() { break; }` (the `fun` keyword at index 0
already consumed when `funDeclaration` is entered). -/
def funBrkToks : List Tok :=
  [kw .FUN "fun" 1, idTok "f" 1, kw .LEFTPAREN "(" 1, kw .RIGHTPAREN ")" 1,
   kw .LEFTBRACE lbr 1, kw .BREAK "break" 1, kw .SEMICOLON ";" 1,
   kw .RIGHTBRACE rbr 1, kw .EOF "" 1]

/-- Token stream of `fun f() { continue; }`. -/
def funCntToks : List Tok :=
  [kw .FUN "fun" 1, idTok "f" 1, kw .LEFTPAREN "(" 1, kw .RIGHTPAREN ")" 1,
   kw .LEFTBRACE lbr 1, kw .CONTINUE "continue" 1, kw .SEMICOLON ";" 1,
   kw .RIGHTBRACE rbr 1, kw .EOF "" 1]

/-- Token stream of `while (true) { fun f() { break; } }`. -/
def whileFunBrkToks : List Tok :=
  [kw .WHILE "while" 1, kw .LEFTPAREN "(" 1, kw .TRUE "true" 1, kw .RIGHTPAREN ")" 1,
   kw .LEFTBRACE lbr 1,
   kw .FUN "fun" 1, idTok "f" 1, kw .LEFTPAREN "(" 1, kw .RIGHTPAREN ")" 1,
   kw .LEFTBRACE lbr 1, kw .BREAK "break" 1, kw .SEMICOLON ";" 1, kw .RIGHTBRACE rbr 1,
   kw .RIGHTBRACE rbr 1, kw .EOF "" 1]

/-- Token stream of `while (true) { break; }`. -/
def whileBrkToks : List Tok :=
  [kw .WHILE "while" 1, kw .LEFTPAREN "(" 1, kw .TRUE "true" 1, kw .RIGHTPAREN ")" 1,
   kw .LEFTBRACE lbr 1, kw .BREAK "break" 1, kw .SEMICOLON ";" 1, kw .RIGHTBRACE rbr 1,
   kw .EOF "" 1]

set_option maxHeartbeats 4000000 in
/-- C10.  `funDeclaration` saves and clears the parser's in-loop flag
before parsing the function body and restores it afterward, so the loop
context does not cross function boundaries: for *every* incoming value
of the flag (in particular `true`, the value it has anywhere inside a
`while`/`for` body), parsing `fun f() { break; }` logs the parse error
"Stray break detected." and sets `parseerror.HadError`, with the flag
restored on exit; likewise for `continue`.  End to end, parsing
`while (true) { fun f() { break; } }` leaves the parse-error flag set,
while `while (true) { break; }` — where the `break` is directly inside
the loop — parses without error. -/
theorem C10_fun_declaration_clears_loop_context :
    (∀ (b h : Bool) (es : List String),
       (pfunDeclaration 20 "function" ⟨funBrkToks, 1, b, h, es⟩).2.hadError = true ∧
       (pfunDeclaration 20 "function" ⟨funBrkToks, 1, b, h, es⟩).2.errors =
         es ++ ["[line 1] Error at 'break': Stray break detected."] ∧
       (pfunDeclaration 20 "function" ⟨funBrkToks, 1, b, h, es⟩).2.inloop = b) ∧
    (∀ (b h : Bool) (es : List String),
       (pfunDeclaration 20 "function" ⟨funCntToks, 1, b, h, es⟩).2.hadError = true ∧
       (pfunDeclaration 20 "function" ⟨funCntToks, 1, b, h, es⟩).2.errors =
         es ++ ["[line 1] Error at 'continue': Stray continue detected."] ∧
       (pfunDeclaration 20 "function" ⟨funCntToks, 1, b, h, es⟩).2.inloop = b) ∧
    ((parseTokens 30 whileFunBrkToks).2.hadError = true ∧
     (parseTokens 30 whileFunBrkToks).2.errors.head? =
       some "[line 1] Error at 'break': Stray break detected.") ∧
    ((parseTokens 30 whileBrkToks).2.hadError = false ∧
     (parseTokens 30 whileBrkToks).2.errors = []) := by
  refine ⟨?_, ?_, ⟨rfl, by with_unfolding_all rfl⟩, ⟨rfl, by with_unfolding_all rfl⟩⟩
  · intro b h es
    exact ⟨rfl, by with_unfolding_all rfl, rfl⟩
  · intro b h es
    exact ⟨rfl, by with_unfolding_all rfl, rfl⟩

end Golox
